import Mathlib

/-!
Verification of the Geometry Management and Detector Model subsystem of the
AllPix Squared detector-simulation framework.

The development shallowly embeds, in Lean, the C++ classes
`allpix::DetectorModel` (with its nested `SupportLayer`),
`allpix::Configuration` and `allpix::GeometryManager`.  Double-precision
floating point quantities of the source are modelled as rational numbers;
`std::shared_ptr` identity of model instances is modelled by an explicit
allocation counter handing out numeric instance ids.  Fallible operations
(C++ `throw`) are modelled with `Except` or with an explicit error component.

Configuration values are stored as typed values (`Val`) rather than as raw
strings: the string-to-value conversion library of the framework is outside
the geometry core, which only consumes already-converted values.
-/

namespace AllpixGeom

/-- A 3D vector / point with rational components, standing in for ROOT's
`XYZVector` / `XYZPoint` with `double` components. -/
structure V3 where
  x : ℚ
  y : ℚ
  z : ℚ
  deriving DecidableEq, Repr

namespace V3

def add (a b : V3) : V3 := ⟨a.x + b.x, a.y + b.y, a.z + b.z⟩

instance : Add V3 := ⟨V3.add⟩

/-- Componentwise halving, standing in for division of a vector by `2.0`. -/
def half (a : V3) : V3 := ⟨a.x / 2, a.y / 2, a.z / 2⟩

end V3

/-- A 2D vector with rational components (ROOT `XYVector`). -/
structure V2 where
  x : ℚ
  y : ℚ
  deriving DecidableEq, Repr

/-- A typed configuration value.  The framework stores values as strings and
converts them on access; the geometry core only ever sees the converted
values, so the embedding stores them converted. -/
inductive Val where
  /-- a scalar floating-point value (`double`) -/
  | num (q : ℚ)
  /-- a 2D integer vector (`DisplacementVector2D<Cartesian2D<int>>`) -/
  | int2 (x y : ℤ)
  /-- a 2D floating-point vector (`XYVector`) -/
  | vec2 (x y : ℚ)
  /-- a 3D floating-point vector (`XYZVector`) -/
  | vec3 (x y z : ℚ)
  /-- a string value -/
  | str (s : String)
  deriving DecidableEq, Repr

/-- One configuration section: a name (empty for header/global sections) and
key/value pairs.  Mirrors `allpix::Configuration`, whose keys form a map;
`entries` is kept key-unique by `setText`, and lookups take the first
match. -/
structure Cfg where
  name : String
  entries : List (String × Val)
  deriving DecidableEq, Repr

namespace Cfg

/-- `Configuration::has` -/
def hasKey (c : Cfg) (k : String) : Bool :=
  c.entries.any (fun kv => kv.1 == k)

/-- Value lookup backing the `Configuration::get<T>` family. -/
def find (c : Cfg) (k : String) : Option Val :=
  (c.entries.find? (fun kv => kv.1 == k)).map (fun kv => kv.2)

/-- `Configuration::setText`: overwrite the key if present, insert it
otherwise. -/
def setText (c : Cfg) (k : String) (v : Val) : Cfg :=
  if c.hasKey k then
    ⟨c.name, c.entries.map (fun kv => if kv.1 == k then (k, v) else kv)⟩
  else
    ⟨c.name, c.entries ++ [(k, v)]⟩

/-- `Configuration::merge`: add all keys of `other` that are not yet defined
in this configuration. -/
def merge (c other : Cfg) : Cfg :=
  ⟨c.name, c.entries ++ other.entries.filter (fun kv => !(c.hasKey kv.1))⟩

/-- `Configuration::countSettings` -/
def countSettings (c : Cfg) : Nat := c.entries.length

/-- `Configuration::getAll` -/
def getAll (c : Cfg) : List (String × Val) := c.entries

end Cfg

/-- The exceptions thrown by the geometry subsystem
(`core/module/exceptions.h` and `core/geometry/exceptions.h`). -/
inductive Err where
  | moduleError (msg : String)
  | invalidModuleAction (msg : String)
  | detectorInvalidName (name : String)
  | detectorExists (name : String)
  | detectorModelExists (t : String)
  | invalidModel (name : String)
  | invalidDetector (name : String)
  | invalidValue (key msg : String)
  | missingKey (key : String)
  deriving DecidableEq, Repr

/-- Typed accessors for configuration values, mirroring `get<T>`:
a missing key throws (`missingKey`), a value of the wrong stored type fails
conversion (`invalidValue`). -/
def Cfg.getNum (c : Cfg) (k : String) : Except Err ℚ :=
  match c.find k with
  | some (Val.num q) => Except.ok q
  | some _ => Except.error (Err.invalidValue k "conversion to double failed")
  | none => Except.error (Err.missingKey k)

/-- `get<double>` with default. -/
def Cfg.getNumD (c : Cfg) (k : String) (d : ℚ) : Except Err ℚ :=
  match c.find k with
  | some (Val.num q) => Except.ok q
  | some _ => Except.error (Err.invalidValue k "conversion to double failed")
  | none => Except.ok d

/-- `get<DisplacementVector2D<Cartesian2D<int>>>` -/
def Cfg.getInt2 (c : Cfg) (k : String) : Except Err (ℤ × ℤ) :=
  match c.find k with
  | some (Val.int2 a b) => Except.ok (a, b)
  | some _ => Except.error (Err.invalidValue k "conversion to int vector failed")
  | none => Except.error (Err.missingKey k)

/-- `get<XYVector>` -/
def Cfg.getVec2 (c : Cfg) (k : String) : Except Err V2 :=
  match c.find k with
  | some (Val.vec2 a b) => Except.ok ⟨a, b⟩
  | some _ => Except.error (Err.invalidValue k "conversion to XYVector failed")
  | none => Except.error (Err.missingKey k)

/-- `get<XYVector>` with default. -/
def Cfg.getVec2D (c : Cfg) (k : String) (d : V2) : Except Err V2 :=
  match c.find k with
  | some (Val.vec2 a b) => Except.ok ⟨a, b⟩
  | some _ => Except.error (Err.invalidValue k "conversion to XYVector failed")
  | none => Except.ok d

/-- `get<XYZVector>` -/
def Cfg.getVec3 (c : Cfg) (k : String) : Except Err V3 :=
  match c.find k with
  | some (Val.vec3 a b c) => Except.ok ⟨a, b, c⟩
  | some _ => Except.error (Err.invalidValue k "conversion to XYZVector failed")
  | none => Except.error (Err.missingKey k)

/-- `get<std::string>` -/
def Cfg.getStr (c : Cfg) (k : String) : Except Err String :=
  match c.find k with
  | some (Val.str s) => Except.ok s
  | some _ => Except.error (Err.invalidValue k "conversion to string failed")
  | none => Except.error (Err.missingKey k)

/-- `get<std::string>` with default. -/
def Cfg.getStrD (c : Cfg) (k : String) (d : String) : Except Err String :=
  match c.find k with
  | some (Val.str s) => Except.ok s
  | some _ => Except.error (Err.invalidValue k "conversion to string failed")
  | none => Except.ok d

/-- View of `Except` as a sum, used to derive decidable equality. -/
def exceptToSum {ε α : Type} : Except ε α → Sum ε α
  | Except.error e => Sum.inl e
  | Except.ok a => Sum.inr a

instance {ε α : Type} [DecidableEq ε] [DecidableEq α] :
    DecidableEq (Except ε α) := fun a b =>
  decidable_of_iff (exceptToSum a = exceptToSum b)
    (by cases a <;> cases b <;> simp [exceptToSum])

/-- The four independent sensor excess margins, `sensor_excess_.at(0)` =
top, `.at(1)` = right, `.at(2)` = bottom, `.at(3)` = left. -/
structure Excess where
  top : ℚ
  right : ℚ
  bottom : ℚ
  left : ℚ
  deriving DecidableEq, Repr

/-- `DetectorModel::SupportLayer`.  The `center` field is the `center_`
member: it is left at its default value in the stored layers and is filled
in by `getSupportLayers`. -/
structure SupportLayer where
  size : V3
  material : String
  hole_size : V3
  offset : V3
  hole_offset : V2
  location : String
  center : V3 := ⟨0, 0, 0⟩
  deriving DecidableEq, Repr

/-- `SupportLayer::getCenter` -/
def SupportLayer.getCenter (l : SupportLayer) : V3 := l.center

/-- `SupportLayer::getSize` -/
def SupportLayer.getSize (l : SupportLayer) : V3 := l.size

/-- `SupportLayer::getHoleSize` -/
def SupportLayer.getHoleSize (l : SupportLayer) : V3 := l.hole_size

/-- `SupportLayer::hasHole`: the hole is present only if both in-plane hole
dimensions exceed `1e-9`. -/
def SupportLayer.hasHole (l : SupportLayer) : Bool :=
  decide (l.hole_size.x > 1 / 1000000000) && decide (l.hole_size.y > 1 / 1000000000)

/-- `allpix::DetectorModel`: the stored primary parameters together with the
configuration sections (`reader_`) the model was constructed from. -/
structure DetectorModel where
  type : String
  number_of_pixels : ℤ × ℤ
  pixel_size : V2
  sensor_thickness : ℚ
  sensor_excess : Excess
  chip_thickness : ℚ
  support_layers : List SupportLayer
  reader : List Cfg
  deriving DecidableEq, Repr

namespace DetectorModel

/-- `DetectorModel::getNPixels` -/
def getNPixels (m : DetectorModel) : ℤ × ℤ := m.number_of_pixels

/-- `DetectorModel::getPixelSize` -/
def getPixelSize (m : DetectorModel) : V2 := m.pixel_size

/-- `DetectorModel::getGridSize`: total size of the pixel grid (zero
thickness). -/
def getGridSize (m : DetectorModel) : V3 :=
  ⟨(m.getNPixels.1 : ℚ) * m.getPixelSize.x, (m.getNPixels.2 : ℚ) * m.getPixelSize.y, 0⟩

/-- `DetectorModel::getCenter`: the local coordinate of the rotation and
position center. -/
def getCenter (m : DetectorModel) : V3 :=
  ⟨m.getGridSize.x / 2 - m.getPixelSize.x / 2,
   m.getGridSize.y / 2 - m.getPixelSize.y / 2, 0⟩

/-- `DetectorModel::getSensorSize` -/
def getSensorSize (m : DetectorModel) : V3 :=
  m.getGridSize +
    ⟨m.sensor_excess.right + m.sensor_excess.left,
     m.sensor_excess.top + m.sensor_excess.bottom, m.sensor_thickness⟩

/-- `DetectorModel::getSensorCenter` -/
def getSensorCenter (m : DetectorModel) : V3 :=
  m.getCenter +
    ⟨(m.sensor_excess.right - m.sensor_excess.left) / 2,
     (m.sensor_excess.top - m.sensor_excess.bottom) / 2, 0⟩

/-- `DetectorModel::getChipSize` -/
def getChipSize (m : DetectorModel) : V3 :=
  m.getGridSize +
    ⟨m.sensor_excess.right + m.sensor_excess.left,
     m.sensor_excess.top + m.sensor_excess.bottom, m.chip_thickness⟩

/-- `DetectorModel::getChipCenter` -/
def getChipCenter (m : DetectorModel) : V3 :=
  m.getCenter +
    ⟨(m.sensor_excess.right - m.sensor_excess.left) / 2,
     (m.sensor_excess.top - m.sensor_excess.bottom) / 2,
     m.getSensorSize.z / 2 + m.getChipSize.z / 2⟩

/-- The loop body of `DetectorModel::getSupportLayers`: walk the stored
layers in declaration order, threading the two running offsets
(`sensor_offset`, decreasing, and `chip_offset`, increasing) and fill the
`center_` of each returned layer. -/
def placeLayers (c : V3) (sensorOffset chipOffset : ℚ) :
    List SupportLayer → List SupportLayer
  | [] => []
  | l :: rest =>
    if l.location == "sensor" then
      { l with center := c + ⟨l.offset.x, l.offset.y, sensorOffset - l.size.z / 2⟩ } ::
        placeLayers c (sensorOffset - l.size.z) chipOffset rest
    else if l.location == "chip" then
      { l with center := c + ⟨l.offset.x, l.offset.y, chipOffset + l.size.z / 2⟩ } ::
        placeLayers c sensorOffset (chipOffset + l.size.z) rest
    else
      { l with center := c + l.offset } ::
        placeLayers c sensorOffset chipOffset rest

/-- `DetectorModel::getSupportLayers`: computes the center of every support
layer by stacking them in declaration order on the sensor and chip sides. -/
def getSupportLayers (m : DetectorModel) : List SupportLayer :=
  placeLayers m.getCenter (-(m.getSensorSize.z / 2))
    (m.getSensorSize.z / 2 + m.getChipSize.z) m.support_layers

/-- The layers are stacked gaplessly upward from running offset `z`: each
layer's center sits half its own thickness above the offset, which then
advances by the full thickness. -/
def stackedUpFrom (z : ℚ) : List SupportLayer → Prop
  | [] => True
  | l :: rest => l.center.z = z + l.size.z / 2 ∧ stackedUpFrom (z + l.size.z) rest

/-- The layers are stacked gaplessly downward from running offset `z`: each
layer's center sits half its own thickness below the offset, which then
recedes by the full thickness. -/
def stackedDownFrom (z : ℚ) : List SupportLayer → Prop
  | [] => True
  | l :: rest => l.center.z = z - l.size.z / 2 ∧ stackedDownFrom (z - l.size.z) rest

/-- The parts covered by `DetectorModel::getSize`: sensor, chip, and every
support layer, each as a (center, size) pair, in the order the source
iterates over them. -/
def sizeElements (m : DetectorModel) : List (V3 × V3) :=
  (m.getSensorCenter, m.getSensorSize) :: (m.getChipCenter, m.getChipSize) ::
    m.getSupportLayers.map (fun l => (l.getCenter, l.getSize))

/-- Fold of the running per-axis maximum of `center + size/2` over a list of
parts.  The C++ code seeds the fold with `std::numeric_limits::lowest()`;
since the part list always contains at least the sensor, seeding with the
first part's value yields the same result. -/
def foldMax (f : V3 × V3 → ℚ) (a : ℚ) (l : List (V3 × V3)) : ℚ :=
  l.foldl (fun acc e => max acc (f e)) a

/-- Fold of the running per-axis minimum over a list of parts (seeded with
`std::numeric_limits::max()` in the source, here with the first part). -/
def foldMin (f : V3 × V3 → ℚ) (a : ℚ) (l : List (V3 × V3)) : ℚ :=
  l.foldl (fun acc e => min acc (f e)) a

/-- Upper corner coordinate of a part on each axis. -/
def topX (e : V3 × V3) : ℚ := e.1.x + e.2.x / 2
def topY (e : V3 × V3) : ℚ := e.1.y + e.2.y / 2
def topZ (e : V3 × V3) : ℚ := e.1.z + e.2.z / 2
/-- Lower corner coordinate of a part on each axis. -/
def botX (e : V3 × V3) : ℚ := e.1.x - e.2.x / 2
def botY (e : V3 × V3) : ℚ := e.1.y - e.2.y / 2
def botZ (e : V3 × V3) : ℚ := e.1.z - e.2.z / 2

/-- The seed of the min/max folds of `getSize`.  The C++ code seeds the
folds with `std::numeric_limits<double>::lowest()` / `::max()`; since the
part list always starts with the sensor part, seeding with that first part
yields the same running min/max. -/
def seedEl (m : DetectorModel) : V3 × V3 :=
  m.sizeElements.headD (m.getSensorCenter, m.getSensorSize)

/-- x-component of `getSize`. -/
def sizeX (m : DetectorModel) : ℚ :=
  2 * max (foldMax topX (topX m.seedEl) m.sizeElements - m.getCenter.x)
    (m.getCenter.x - foldMin botX (botX m.seedEl) m.sizeElements)

/-- y-component of `getSize`. -/
def sizeY (m : DetectorModel) : ℚ :=
  2 * max (foldMax topY (topY m.seedEl) m.sizeElements - m.getCenter.y)
    (m.getCenter.y - foldMin botY (botY m.seedEl) m.sizeElements)

/-- z-component of `getSize`. -/
def sizeZ (m : DetectorModel) : ℚ :=
  2 * max (foldMax topZ (topZ m.seedEl) m.sizeElements - m.getCenter.z)
    (m.getCenter.z - foldMin botZ (botZ m.seedEl) m.sizeElements)

/-- `DetectorModel::getSize`: size of the box, centered at `getCenter`,
covering sensor, chip and all support layers.  Per axis the half-size is the
larger of (max − center) and (center − min) over all part corners. -/
def getSize (m : DetectorModel) : V3 := ⟨m.sizeX, m.sizeY, m.sizeZ⟩

/-- `DetectorModel::addSupportLayer`: the layer size and the hole size both
get the layer thickness as their z-component. -/
def addSupportLayer (m : DetectorModel) (size : V2) (thickness : ℚ)
    (offset : V3) (material : String) (location : String)
    (hole_size : V2) (hole_offset : V2) : DetectorModel :=
  { m with
    support_layers := m.support_layers ++
      [{ size := ⟨size.x, size.y, thickness⟩
         material := material
         hole_size := ⟨hole_size.x, hole_size.y, thickness⟩
         offset := offset
         hole_offset := hole_offset
         location := location }] }

end DetectorModel

/-- `ConfigReader::getConfigurations(name)`: all sections with the given
name. -/
def configsNamed (reader : List Cfg) (n : String) : List Cfg :=
  reader.filter (fun c => c.name == n)

/-- Modelled from the spec: `ConfigReader::getHeaderConfiguration` (the
`ConfigReader` class itself is not among the sources at hand).  Per the
specification of model re-parsing, the header configuration is the merge of
all empty-named sections in insertion order, keys of earlier sections taking
precedence (`Configuration::merge` only adds keys not yet defined). -/
def headerConfiguration (reader : List Cfg) : Cfg :=
  match reader.filter (fun c => c.name == "") with
  | [] => ⟨"", []⟩
  | c :: rest => rest.foldl Cfg.merge c

/-- `DetectorModel::getConfigurations`: merge the header configuration with
every anonymous section, keep named sections in original order, and return
the merged global section first. -/
def DetectorModel.getConfigurations (m : DetectorModel) : List Cfg :=
  let r := m.reader.foldl
    (fun (acc : Cfg × List Cfg) c =>
      if c.name == "" then (acc.1.merge c, acc.2) else (acc.1, acc.2 ++ [c]))
    (headerConfiguration m.reader, [])
  r.1 :: r.2

/-- The body of the support-section loop in the `DetectorModel`
constructor: read one `[support]` section and append the layer. -/
def parseSupport (m : DetectorModel) (sc : Cfg) : Except Err DetectorModel := do
  let thickness ← sc.getNum "thickness"
  let size ← sc.getVec2 "size"
  let loc0 ← sc.getStrD "location" "chip"
  let location := loc0.toLower
  if location != "sensor" && location != "chip" && location != "absolute" then
    throw (Err.invalidValue "location"
      "location of the support should be 'chip', 'sensor' or 'absolute'")
  let offset ←
    if location == "absolute" then sc.getVec3 "offset"
    else do
      let xy ← sc.getVec2D "offset" ⟨0, 0⟩
      pure (⟨xy.x, xy.y, 0⟩ : V3)
  let material0 ← sc.getStrD "material" "g10"
  let material := material0.toLower
  let hole_size ← sc.getVec2D "hole_size" ⟨0, 0⟩
  let hole_offset ← sc.getVec2D "hole_offset" ⟨0, 0⟩
  pure (m.addSupportLayer size thickness offset material location hole_size hole_offset)

/-- The `DetectorModel` constructor: read the header parameters, then every
`[support]` section. -/
def DetectorModel.parse (t : String) (reader : List Cfg) :
    Except Err DetectorModel := do
  let config := headerConfiguration reader
  let npix ← config.getInt2 "number_of_pixels"
  let psize ← config.getVec2 "pixel_size"
  let sthick ← config.getNum "sensor_thickness"
  let dexc ← config.getNumD "sensor_excess" 0
  let etop ← config.getNumD "sensor_excess_top" dexc
  let ebot ← config.getNumD "sensor_excess_bottom" dexc
  let eleft ← config.getNumD "sensor_excess_left" dexc
  let eright ← config.getNumD "sensor_excess_right" dexc
  let cthick ← config.getNumD "chip_thickness" 0
  let base : DetectorModel :=
    { type := t
      number_of_pixels := npix
      pixel_size := psize
      sensor_thickness := sthick
      sensor_excess := ⟨etop, eright, ebot, eleft⟩
      chip_thickness := cthick
      support_layers := []
      reader := reader }
  (configsNamed reader "support").foldlM parseSupport base

/-- A heap-allocated model instance, the payload of a
`std::shared_ptr<DetectorModel>`.  Pointer identity is modelled by the
numeric `id`, handed out by an allocation counter. -/
structure MModel where
  id : Nat
  dm : DetectorModel
  deriving DecidableEq, Repr

/-- A 3D rotation held as three rows (ROOT `Rotation3D`). -/
structure Mat3 where
  r0 : V3
  r1 : V3
  r2 : V3
  deriving DecidableEq, Repr

/-- Matrix application to a vector. -/
def Mat3.apply (r : Mat3) (p : V3) : V3 :=
  ⟨r.r0.x * p.x + r.r0.y * p.y + r.r0.z * p.z,
   r.r1.x * p.x + r.r1.y * p.y + r.r1.z * p.z,
   r.r2.x * p.x + r.r2.y * p.y + r.r2.z * p.z⟩

/-- Modelled from the spec: `allpix::Detector` (`Detector.hpp` is not among
the sources at hand).  A detector holds its unique name, global position and
orientation; its model reference is unset until geometry closing assigns it
via `set_model`. -/
structure Detector where
  name : String
  position : V3
  orientation : Mat3
  model : Option MModel := none
  deriving DecidableEq, Repr

/-- Modelled from the spec: `Detector::getGlobalPosition` applies the
orientation rotation and then the position translation. -/
def Detector.getGlobalPosition (d : Detector) (p : V3) : V3 :=
  d.orientation.apply p + d.position

/-- `Detector::getType`: the type of the resolved model (unset before
closing). -/
def Detector.getType (d : Detector) : Option String :=
  d.model.map (fun m => m.dm.type)

/-- `allpix::GeometryManager` state.  Detectors in the pending map are
referenced by their index in `detectors` (standing in for the raw pointers
of the source). -/
structure GeometryManager where
  closed : Bool
  detectors : List Detector
  detector_names : List String
  models : List MModel
  model_names : List String
  nonresolved_models : List (String × List (Cfg × Nat))
  points : List V3
  next_id : Nat
  deriving DecidableEq, Repr

namespace GeometryManager

/-- `GeometryManager::addPoint`.  Errors leave the manager unchanged, so the
result carries both the (possibly updated) state and the thrown error. -/
def addPoint (gm : GeometryManager) (p : V3) : GeometryManager × Option Err :=
  if gm.closed then
    (gm, some (Err.moduleError "Geometry is already closed before adding detector"))
  else
    ({ gm with points := gm.points ++ [p] }, none)

/-- `GeometryManager::addModel`.  The argument is the possibly-null shared
pointer. -/
def addModel (gm : GeometryManager) (m : Option MModel) :
    GeometryManager × Option Err :=
  if gm.closed then
    (gm, some (Err.moduleError "Geometry is already closed before adding detector"))
  else
    match m with
    | none => (gm, some (Err.invalidModuleAction "Added model cannot be a null pointer"))
    | some mm =>
      if gm.model_names.contains mm.dm.type then
        (gm, some (Err.detectorModelExists mm.dm.type))
      else
        ({ gm with
            model_names := gm.model_names ++ [mm.dm.type]
            models := gm.models ++ [mm] }, none)

/-- `GeometryManager::addDetector`.  The argument is the possibly-null
shared pointer. -/
def addDetector (gm : GeometryManager) (d : Option Detector) :
    GeometryManager × Option Err :=
  if gm.closed then
    (gm, some (Err.moduleError "Geometry is already closed before adding detector"))
  else
    match d with
    | none => (gm, some (Err.invalidModuleAction "Added detector cannot be a null pointer"))
    | some dd =>
      if dd.name == "global" then
        (gm, some (Err.detectorInvalidName dd.name))
      else if gm.detector_names.contains dd.name then
        (gm, some (Err.detectorExists dd.name))
      else
        ({ gm with
            detector_names := gm.detector_names ++ [dd.name]
            detectors := gm.detectors ++ [dd] }, none)

/-- `GeometryManager::getModel`: linear scan, `InvalidModelError` if
absent. -/
def getModelByType (models : List MModel) (name : String) : Except Err MModel :=
  match models.find? (fun m => m.dm.type == name) with
  | some m => Except.ok m
  | none => Except.error (Err.invalidModel name)

end GeometryManager

/-- The placement-only keys skipped when building the specialization
overlay in `close_geometry`. -/
def internalKey (k : String) : Bool :=
  k == "type" || k == "position" || k == "orientation_mode" || k == "orientation"

/-- The overlay configuration built in `close_geometry`: every non-internal
key of the detector section, added via `setText` to a fresh unnamed
configuration. -/
def buildOverlay (cfg : Cfg) : Cfg :=
  cfg.getAll.foldl
    (fun nc kv => if internalKey kv.1 then nc else nc.setText kv.1 kv.2)
    ⟨"", []⟩

/-- `GeometryManager::parse_config`: dispatch on the header `type`.  The
`HybridPixelDetectorModel` and `MonolithicPixelDetectorModel` classes are
not among the sources at hand; modelled from the spec: both variants refine
only chip/support placement rules, so their shared parameter parsing is the
base `DetectorModel` constructor. -/
def parse_config (name : String) (reader : List Cfg) : Except Err DetectorModel := do
  let config := headerConfiguration reader
  let t ← config.getStr "type"
  if t == "hybrid" then DetectorModel.parse name reader
  else if t == "monolithic" then DetectorModel.parse name reader
  else throw (Err.invalidValue "type" "model type is not supported")

/-- The body of the resolution loop of `close_geometry` for one pending
(detector, requested-type) pair: fetch the generic model, build the overlay
of non-internal keys, and re-parse a specialized model (with a freshly
allocated instance id) when the overlay is non-empty. -/
def resolve_one (models : List MModel) (ty : String) (cfg : Cfg) (nid : Nat) :
    Except Err (MModel × Nat) :=
  match GeometryManager.getModelByType models ty with
  | Except.error e => Except.error e
  | Except.ok model =>
    let newConfig := buildOverlay cfg
    if newConfig.countSettings != 0 then
      match parse_config ty (newConfig :: model.dm.getConfigurations) with
      | Except.error e => Except.error e
      | Except.ok dm => Except.ok (⟨nid, dm⟩, nid + 1)
    else
      Except.ok (model, nid)

/-- The pending map flattened in iteration order: per requested type, the
pending (configuration, detector) pairs in insertion order. -/
def flattenPending (nr : List (String × List (Cfg × Nat))) :
    List (String × Cfg × Nat) :=
  nr.flatMap (fun p => p.2.map (fun cd => (p.1, cd.1, cd.2)))

/-- The resolution loop of `close_geometry`: produce, in order, the model
instance assigned to each pending detector, threading the instance
allocation counter. -/
def resolveAll (models : List MModel) :
    List (String × Cfg × Nat) → Nat → Except Err (List (Nat × MModel) × Nat)
  | [], nid => Except.ok ([], nid)
  | (ty, cfg, d) :: rest, nid =>
    match resolve_one models ty cfg nid with
    | Except.error e => Except.error e
    | Except.ok (m, nid1) =>
      match resolveAll models rest nid1 with
      | Except.error e => Except.error e
      | Except.ok (tail, nid2) => Except.ok ((d, m) :: tail, nid2)

/-- `Detector::set_model` applied to the detector at index `i`. -/
def setModelAt (dets : List Detector) (i : Nat) (m : MModel) : List Detector :=
  dets.mapIdx (fun j d => if j == i then { d with model := some m } else d)

/-- Apply all resolved model assignments to the detector list. -/
def applyAssignments (dets : List Detector) (asgns : List (Nat × MModel)) :
    List Detector :=
  asgns.foldl (fun ds a => setModelAt ds a.1 a.2) dets

namespace GeometryManager

/-- `GeometryManager::close_geometry`: resolve the model of every pending
detector (specializing when the detector configuration overrides
parameters) and mark the geometry closed.  `load_models` reads model files
from the filesystem search paths, which is outside the state modelled here:
models are taken as already registered via `addModel`. -/
def close_geometry (gm : GeometryManager) : Except Err GeometryManager :=
  match resolveAll gm.models (flattenPending gm.nonresolved_models)
      gm.next_id with
  | Except.error e => Except.error e
  | Except.ok (asgns, nid) =>
    Except.ok { gm with
                detectors := applyAssignments gm.detectors asgns
                next_id := nid
                closed := true }

/-- The `if(!closed_) close_geometry();` prologue shared by the accessors
that need resolved geometry. -/
def ensureClosed (gm : GeometryManager) : Except Err GeometryManager :=
  if gm.closed then Except.ok gm else close_geometry gm

/-- `GeometryManager::getModels`: a `const` accessor, it returns the model
list and cannot mutate the manager. -/
def getModels (gm : GeometryManager) : List MModel × GeometryManager :=
  (gm.models, gm)

/-- `GeometryManager::getDetectors`: closes the geometry first if it is not
yet closed. -/
def getDetectors (gm : GeometryManager) :
    Except Err (List Detector × GeometryManager) :=
  match ensureClosed gm with
  | Except.error e => Except.error e
  | Except.ok g => Except.ok (g.detectors, g)

/-- `GeometryManager::getDetector`: closes first, then scans by name. -/
def getDetector (gm : GeometryManager) (name : String) :
    Except Err (Detector × GeometryManager) :=
  match ensureClosed gm with
  | Except.error e => Except.error e
  | Except.ok g =>
    match g.detectors.find? (fun d => d.name == name) with
    | some d => Except.ok (d, g)
    | none => Except.error (Err.invalidDetector name)

/-- `GeometryManager::getDetectorsByType`: closes first, then filters by
model type, failing if no detector matches. -/
def getDetectorsByType (gm : GeometryManager) (ty : String) :
    Except Err (List Detector × GeometryManager) :=
  match ensureClosed gm with
  | Except.error e => Except.error e
  | Except.ok g =>
    if (g.detectors.filter (fun d => d.getType == some ty)).isEmpty then
      Except.error (Err.invalidModel ty)
    else
      Except.ok (g.detectors.filter (fun d => d.getType == some ty), g)

/-- The eight sign combinations `(offset_x, offset_y, offset_z)` of the
corner enumeration in `getMinimumCoordinate`/`getMaximumCoordinate`. -/
def cornerSigns : List (ℤ × ℤ × ℤ) :=
  [(1, 1, 1), (1, 1, -1), (1, -1, 1), (1, -1, -1),
   (-1, 1, 1), (-1, 1, -1), (-1, -1, 1), (-1, -1, -1)]

/-- The eight transformed corners of a detector's model bounding box.  A
detector whose model is still unset contributes nothing (the source is only
ever called after closing, when every registered detector has a model). -/
def detectorCorners (d : Detector) : List V3 :=
  match d.model with
  | none => []
  | some m =>
    cornerSigns.map (fun s =>
      d.getGlobalPosition
        ⟨m.dm.getCenter.x + s.1 * (m.dm.getSize.x / 2),
         m.dm.getCenter.y + s.2.1 * (m.dm.getSize.y / 2),
         m.dm.getCenter.z + s.2.2 * (m.dm.getSize.z / 2)⟩)

/-- `GeometryManager::getMinimumCoordinate`: closes first, then folds the
per-axis minimum over all detector corners and all free-standing points,
seeded at the origin. -/
def getMinimumCoordinate (gm : GeometryManager) :
    Except Err (V3 × GeometryManager) :=
  match ensureClosed gm with
  | Except.error e => Except.error e
  | Except.ok g =>
    Except.ok ((g.detectors.flatMap detectorCorners ++ g.points).foldl
      (fun acc q => (⟨min acc.x q.x, min acc.y q.y, min acc.z q.z⟩ : V3))
      ⟨0, 0, 0⟩, g)

/-- `GeometryManager::getMaximumCoordinate`: closes first, then folds the
per-axis maximum over all detector corners and all free-standing points,
seeded at the origin. -/
def getMaximumCoordinate (gm : GeometryManager) :
    Except Err (V3 × GeometryManager) :=
  match ensureClosed gm with
  | Except.error e => Except.error e
  | Except.ok g =>
    Except.ok ((g.detectors.flatMap detectorCorners ++ g.points).foldl
      (fun acc q => (⟨max acc.x q.x, max acc.y q.y, max acc.z q.z⟩ : V3))
      ⟨0, 0, 0⟩, g)

end GeometryManager

/-- The model description of the end-to-end example of the specification:
`number_of_pixels = (2,2)`, `pixel_size = (100µm,100µm)`,
`sensor_thickness = 300µm`, zero excess (lengths in µm). -/
def exampleReader : List Cfg :=
  [⟨"", [("type", Val.str "monolithic"),
         ("number_of_pixels", Val.int2 2 2),
         ("pixel_size", Val.vec2 100 100),
         ("sensor_thickness", Val.num 300)]⟩]

/-- The detector model that parsing `exampleReader` produces. -/
def exampleModel : DetectorModel :=
  { type := "X"
    number_of_pixels := (2, 2)
    pixel_size := ⟨100, 100⟩
    sensor_thickness := 300
    sensor_excess := ⟨0, 0, 0, 0⟩
    chip_thickness := 0
    support_layers := []
    reader := exampleReader }

/-- An open geometry manager with empty registries. -/
def gmEmpty : GeometryManager :=
  { closed := false
    detectors := []
    detector_names := []
    models := []
    model_names := []
    nonresolved_models := []
    points := []
    next_id := 0 }

/-- A closed geometry manager with empty registries. -/
def gmClosedEmpty : GeometryManager := { gmEmpty with closed := true }

/-- Whether a pending entry carries specialization overrides: the condition
`new_config.countSettings() != 0` of `close_geometry` on its overlay. -/
def hasOverride (e : String × Cfg × Nat) : Bool :=
  (buildOverlay e.2.1).countSettings != 0

/-- The number of pending entries with overrides: each consumes one fresh
model-instance id during closing. -/
def countOverrides (flat : List (String × Cfg × Nat)) : Nat :=
  (flat.filter hasOverride).length

/-- First-match key lookup across a list of configuration sections, in
order. -/
def findChain (k : String) : List Cfg → Option Val
  | [] => none
  | c :: rest => (c.find k).or (findChain k rest)

/-- The identity rotation. -/
def mat3Id : Mat3 := ⟨⟨1, 0, 0⟩, ⟨0, 1, 0⟩, ⟨0, 0, 1⟩⟩

/-- The registered generic model instance of type "X" used by the concrete
closing runs: instance id 0, payload `exampleModel`. -/
def mXinst : MModel := ⟨0, exampleModel⟩

/-- A detector section with only placement keys: no overrides. -/
def cfgPlainDet : Cfg :=
  ⟨"det0", [("type", Val.str "X"), ("position", Val.vec3 0 0 0)]⟩

/-- A detector section overriding `sensor_thickness`. -/
def cfgOvDet : Cfg :=
  ⟨"det1", [("type", Val.str "X"), ("sensor_thickness", Val.num 600)]⟩

/-- The specialized model produced by re-parsing `exampleModel` under the
`sensor_thickness` override of `cfgOvDet`. -/
def dmSpec : DetectorModel :=
  { type := "X"
    number_of_pixels := (2, 2)
    pixel_size := ⟨100, 100⟩
    sensor_thickness := 600
    sensor_excess := ⟨0, 0, 0, 0⟩
    chip_thickness := 0
    support_layers := []
    reader := [⟨"", [("sensor_thickness", Val.num 600)]⟩,
               ⟨"", [("type", Val.str "monolithic"),
                     ("number_of_pixels", Val.int2 2 2),
                     ("pixel_size", Val.vec2 100 100),
                     ("sensor_thickness", Val.num 300)]⟩] }

/-- A pending detector instance before closing. -/
def det0 : Detector := ⟨"det0", ⟨0, 0, 0⟩, mat3Id, none⟩
/-- A second pending detector instance before closing. -/
def det1 : Detector := ⟨"det1", ⟨0, 0, 0⟩, mat3Id, none⟩

/-- A concrete open manager with one registered model and two pending
detectors: `det0` without overrides, `det1` overriding
`sensor_thickness`. -/
def gmC4 : GeometryManager :=
  { closed := false
    detectors := [det0, det1]
    detector_names := ["det0", "det1"]
    models := [mXinst]
    model_names := ["X"]
    nonresolved_models := [("X", [(cfgPlainDet, 0), (cfgOvDet, 1)])]
    points := []
    next_id := 1 }

/-- The state `close_geometry` produces from `gmC4`. -/
def gmC4closed : GeometryManager :=
  { closed := true
    detectors := [{ det0 with model := some mXinst },
                  { det1 with model := some ⟨1, dmSpec⟩ }]
    detector_names := ["det0", "det1"]
    models := [mXinst]
    model_names := ["X"]
    nonresolved_models := [("X", [(cfgPlainDet, 0), (cfgOvDet, 1)])]
    points := []
    next_id := 2 }

/-- Two pending detectors of the same type with identical override sets. -/
def flatC5 : List (String × Cfg × Nat) :=
  [("X", cfgOvDet, 0), ("X", cfgOvDet, 1)]

/-- The assignment list the resolution loop produces for `flatC5`: each of
the two identically-overridden detectors receives its own fresh instance. -/
def asgnsC5 : List (Nat × MModel) :=
  [(0, ⟨1, dmSpec⟩), (1, ⟨2, dmSpec⟩)]

/-! ## Theorems -/

namespace V3

@[simp] theorem add_x (a b : V3) : (a + b).x = a.x + b.x := rfl
@[simp] theorem add_y (a b : V3) : (a + b).y = a.y + b.y := rfl
@[simp] theorem add_z (a b : V3) : (a + b).z = a.z + b.z := rfl
@[simp] theorem half_x (a : V3) : a.half.x = a.x / 2 := rfl
@[simp] theorem half_y (a : V3) : a.half.y = a.y / 2 := rfl
@[simp] theorem half_z (a : V3) : a.half.z = a.z / 2 := rfl

end V3

theorem DetectorModel.getSize_x (m : DetectorModel) : m.getSize.x = m.sizeX := rfl
theorem DetectorModel.getSize_y (m : DetectorModel) : m.getSize.y = m.sizeY := rfl
theorem DetectorModel.getSize_z (m : DetectorModel) : m.getSize.z = m.sizeZ := rfl

/-- C1: for every detector model with pixel grid n×m and pixel size (w,h),
`getCenter()` returns (n·w/2 − w/2, m·h/2 − h/2, 0); in particular the model
with `number_of_pixels = (2,2)`, `pixel_size = (100µm,100µm)` and zero
excess has `getCenter() = (50µm,50µm,0)`. -/
theorem C1_getCenter :
    (∀ m : DetectorModel,
      m.getCenter =
        ⟨(m.getNPixels.1 : ℚ) * m.getPixelSize.x / 2 - m.getPixelSize.x / 2,
         (m.getNPixels.2 : ℚ) * m.getPixelSize.y / 2 - m.getPixelSize.y / 2, 0⟩) ∧
    DetectorModel.parse "X" exampleReader = Except.ok exampleModel ∧
    exampleModel.getCenter = ⟨50, 50, 0⟩ := by
  refine ⟨fun m => rfl, rfl, ?_⟩
  show (⟨exampleModel.getGridSize.x / 2 - exampleModel.getPixelSize.x / 2,
        exampleModel.getGridSize.y / 2 - exampleModel.getPixelSize.y / 2, 0⟩ : V3) =
    ⟨50, 50, 0⟩
  have hx : exampleModel.getGridSize.x / 2 - exampleModel.getPixelSize.x / 2 = 50 := by
    show ((2 : ℤ) : ℚ) * 100 / 2 - 100 / 2 = 50
    norm_num
  have hy : exampleModel.getGridSize.y / 2 - exampleModel.getPixelSize.y / 2 = 50 := by
    show ((2 : ℤ) : ℚ) * 100 / 2 - 100 / 2 = 50
    norm_num
  rw [hx, hy]

/-- C10: every support layer added via `addSupportLayer` with thickness `t`
has a hole spanning the full thickness of the layer: `getHoleSize().z()`
equals `t`, while the configured in-plane hole size only sets the x and y
components. -/
theorem C10_hole_spans_thickness (m : DetectorModel) (size : V2) (t : ℚ)
    (off : V3) (mat loc : String) (hs ho : V2) :
    ∃ l : SupportLayer,
      (m.addSupportLayer size t off mat loc hs ho).support_layers =
        m.support_layers ++ [l] ∧
      l.getHoleSize.z = t ∧ l.getHoleSize.x = hs.x ∧ l.getHoleSize.y = hs.y :=
  ⟨_, rfl, rfl, rfl, rfl⟩

namespace DetectorModel

theorem le_foldMax (f : V3 × V3 → ℚ) :
    ∀ (l : List (V3 × V3)) (a : ℚ), a ≤ foldMax f a l := by
  intro l
  induction l with
  | nil => intro a; exact le_refl a
  | cons e t ih =>
    intro a
    exact le_trans (le_max_left a (f e)) (ih (max a (f e)))

theorem mem_le_foldMax (f : V3 × V3 → ℚ) :
    ∀ (l : List (V3 × V3)) (a : ℚ) (e : V3 × V3), e ∈ l → f e ≤ foldMax f a l := by
  intro l
  induction l with
  | nil => intro a e he; cases he
  | cons e0 t ih =>
    intro a e he
    rcases List.mem_cons.mp he with heq | hmem
    · subst heq
      exact le_trans (le_max_right a (f e)) (le_foldMax f t (max a (f e)))
    · exact ih (max a (f e0)) e hmem

theorem foldMin_le (f : V3 × V3 → ℚ) :
    ∀ (l : List (V3 × V3)) (a : ℚ), foldMin f a l ≤ a := by
  intro l
  induction l with
  | nil => intro a; exact le_refl a
  | cons e t ih =>
    intro a
    exact le_trans (ih (min a (f e))) (min_le_left a (f e))

theorem foldMin_le_mem (f : V3 × V3 → ℚ) :
    ∀ (l : List (V3 × V3)) (a : ℚ) (e : V3 × V3), e ∈ l → foldMin f a l ≤ f e := by
  intro l
  induction l with
  | nil => intro a e he; cases he
  | cons e0 t ih =>
    intro a e he
    rcases List.mem_cons.mp he with heq | hmem
    · subst heq
      exact le_trans (foldMin_le f t (min a (f e))) (min_le_right a (f e))
    · exact ih (min a (f e0)) e hmem

end DetectorModel

/-- C2: for every detector model, `getSize()` is a box symmetric about
`getCenter()` that covers the sensor, the chip and every support layer: for
every part, on each axis, `getCenter() − getSize()/2` and
`getCenter() + getSize()/2` bound the part's extent
(its own center ± half its own size). -/
theorem C2_getSize_covers (m : DetectorModel) (cs : V3 × V3)
    (h : cs ∈ m.sizeElements) :
    (cs.1.x + cs.2.x / 2 ≤ m.getCenter.x + m.getSize.x / 2 ∧
      m.getCenter.x - m.getSize.x / 2 ≤ cs.1.x - cs.2.x / 2) ∧
    (cs.1.y + cs.2.y / 2 ≤ m.getCenter.y + m.getSize.y / 2 ∧
      m.getCenter.y - m.getSize.y / 2 ≤ cs.1.y - cs.2.y / 2) ∧
    (cs.1.z + cs.2.z / 2 ≤ m.getCenter.z + m.getSize.z / 2 ∧
      m.getCenter.z - m.getSize.z / 2 ≤ cs.1.z - cs.2.z / 2) := by
  rw [DetectorModel.getSize_x, DetectorModel.getSize_y, DetectorModel.getSize_z]
  have hTx : cs.1.x + cs.2.x / 2 ≤ DetectorModel.foldMax DetectorModel.topX
      (DetectorModel.topX m.seedEl) m.sizeElements :=
    DetectorModel.mem_le_foldMax DetectorModel.topX m.sizeElements
      (DetectorModel.topX m.seedEl) cs h
  have hTy : cs.1.y + cs.2.y / 2 ≤ DetectorModel.foldMax DetectorModel.topY
      (DetectorModel.topY m.seedEl) m.sizeElements :=
    DetectorModel.mem_le_foldMax DetectorModel.topY m.sizeElements
      (DetectorModel.topY m.seedEl) cs h
  have hTz : cs.1.z + cs.2.z / 2 ≤ DetectorModel.foldMax DetectorModel.topZ
      (DetectorModel.topZ m.seedEl) m.sizeElements :=
    DetectorModel.mem_le_foldMax DetectorModel.topZ m.sizeElements
      (DetectorModel.topZ m.seedEl) cs h
  have hBx : DetectorModel.foldMin DetectorModel.botX
      (DetectorModel.botX m.seedEl) m.sizeElements ≤ cs.1.x - cs.2.x / 2 :=
    DetectorModel.foldMin_le_mem DetectorModel.botX m.sizeElements
      (DetectorModel.botX m.seedEl) cs h
  have hBy : DetectorModel.foldMin DetectorModel.botY
      (DetectorModel.botY m.seedEl) m.sizeElements ≤ cs.1.y - cs.2.y / 2 :=
    DetectorModel.foldMin_le_mem DetectorModel.botY m.sizeElements
      (DetectorModel.botY m.seedEl) cs h
  have hBz : DetectorModel.foldMin DetectorModel.botZ
      (DetectorModel.botZ m.seedEl) m.sizeElements ≤ cs.1.z - cs.2.z / 2 :=
    DetectorModel.foldMin_le_mem DetectorModel.botZ m.sizeElements
      (DetectorModel.botZ m.seedEl) cs h
  unfold DetectorModel.sizeX DetectorModel.sizeY DetectorModel.sizeZ
  refine ⟨⟨?_, ?_⟩, ⟨?_, ?_⟩, ⟨?_, ?_⟩⟩
  · have hmx := le_max_left
      (DetectorModel.foldMax DetectorModel.topX (DetectorModel.topX m.seedEl)
        m.sizeElements - m.getCenter.x)
      (m.getCenter.x - DetectorModel.foldMin DetectorModel.botX
        (DetectorModel.botX m.seedEl) m.sizeElements)
    linarith
  · have hmx := le_max_right
      (DetectorModel.foldMax DetectorModel.topX (DetectorModel.topX m.seedEl)
        m.sizeElements - m.getCenter.x)
      (m.getCenter.x - DetectorModel.foldMin DetectorModel.botX
        (DetectorModel.botX m.seedEl) m.sizeElements)
    linarith
  · have hmy := le_max_left
      (DetectorModel.foldMax DetectorModel.topY (DetectorModel.topY m.seedEl)
        m.sizeElements - m.getCenter.y)
      (m.getCenter.y - DetectorModel.foldMin DetectorModel.botY
        (DetectorModel.botY m.seedEl) m.sizeElements)
    linarith
  · have hmy := le_max_right
      (DetectorModel.foldMax DetectorModel.topY (DetectorModel.topY m.seedEl)
        m.sizeElements - m.getCenter.y)
      (m.getCenter.y - DetectorModel.foldMin DetectorModel.botY
        (DetectorModel.botY m.seedEl) m.sizeElements)
    linarith
  · have hmz := le_max_left
      (DetectorModel.foldMax DetectorModel.topZ (DetectorModel.topZ m.seedEl)
        m.sizeElements - m.getCenter.z)
      (m.getCenter.z - DetectorModel.foldMin DetectorModel.botZ
        (DetectorModel.botZ m.seedEl) m.sizeElements)
    linarith
  · have hmz := le_max_right
      (DetectorModel.foldMax DetectorModel.topZ (DetectorModel.topZ m.seedEl)
        m.sizeElements - m.getCenter.z)
      (m.getCenter.z - DetectorModel.foldMin DetectorModel.botZ
        (DetectorModel.botZ m.seedEl) m.sizeElements)
    linarith

/-- Witness for C2 at the example model: the sensor part of the model built
from `exampleReader` is one of its parts, and its extent is bounded by
`getCenter ± getSize/2`. -/
theorem C2_getSize_covers_witness :
    (exampleModel.getSensorCenter, exampleModel.getSensorSize) ∈
      exampleModel.sizeElements ∧
    (exampleModel.getSensorCenter.x + exampleModel.getSensorSize.x / 2 ≤
        exampleModel.getCenter.x + exampleModel.getSize.x / 2 ∧
      exampleModel.getCenter.x - exampleModel.getSize.x / 2 ≤
        exampleModel.getSensorCenter.x - exampleModel.getSensorSize.x / 2) := by
  have h : (exampleModel.getSensorCenter, exampleModel.getSensorSize) ∈
      exampleModel.sizeElements := List.mem_cons_self _ _
  exact ⟨h, (C2_getSize_covers exampleModel _ h).1⟩

namespace DetectorModel

theorem placeLayers_sensor_stacked :
    ∀ (ls : List SupportLayer) (c : V3) (s k : ℚ),
      stackedDownFrom (c.z + s)
        ((placeLayers c s k ls).filter (fun l => l.location == "sensor")) := by
  intro ls
  induction ls with
  | nil => intro c s k; simp [placeLayers, List.filter, stackedDownFrom]
  | cons l rest ih =>
    intro c s k
    cases hsb : (l.location == "sensor") with
    | true =>
      simp only [placeLayers, hsb, if_true, List.filter_cons, stackedDownFrom]
      refine ⟨?_, ?_⟩
      · show (c + (⟨l.offset.x, l.offset.y, s - l.size.z / 2⟩ : V3)).z =
          (c.z + s) - l.size.z / 2
        rw [V3.add_z]
        ring
      · have h2 := ih c (s - l.size.z) k
        have heq : c.z + (s - l.size.z) = (c.z + s) - l.size.z := by ring
        rw [heq] at h2
        exact h2
    | false =>
      cases hcb : (l.location == "chip") with
      | true =>
        simp only [placeLayers, hsb, hcb, if_false, if_true, List.filter_cons,
          Bool.false_eq_true]
        exact ih c s (k + l.size.z)
      | false =>
        simp only [placeLayers, hsb, hcb, if_false, List.filter_cons,
          Bool.false_eq_true]
        exact ih c s k

theorem placeLayers_chip_stacked :
    ∀ (ls : List SupportLayer) (c : V3) (s k : ℚ),
      stackedUpFrom (c.z + k)
        ((placeLayers c s k ls).filter (fun l => l.location == "chip")) := by
  intro ls
  induction ls with
  | nil => intro c s k; simp [placeLayers, List.filter, stackedUpFrom]
  | cons l rest ih =>
    intro c s k
    cases hsb : (l.location == "sensor") with
    | true =>
      have hlc : l.location = "sensor" := eq_of_beq hsb
      have hdrop : (l.location == "chip") = false := by
        rw [hlc]; decide
      simp only [placeLayers, hsb, hdrop, if_true, List.filter_cons,
        Bool.false_eq_true]
      exact ih c (s - l.size.z) k
    | false =>
      cases hcb : (l.location == "chip") with
      | true =>
        simp only [placeLayers, hsb, hcb, if_false, if_true, List.filter_cons,
          stackedUpFrom, Bool.false_eq_true]
        refine ⟨?_, ?_⟩
        · show (c + (⟨l.offset.x, l.offset.y, k + l.size.z / 2⟩ : V3)).z =
            (c.z + k) + l.size.z / 2
          rw [V3.add_z]
          ring
        · have h2 := ih c s (k + l.size.z)
          have heq : c.z + (k + l.size.z) = (c.z + k) + l.size.z := by ring
          rw [heq] at h2
          exact h2
      | false =>
        simp only [placeLayers, hsb, hcb, if_false, List.filter_cons,
          Bool.false_eq_true]
        exact ih c s k

theorem placeLayers_mem :
    ∀ (ls : List SupportLayer) (c : V3) (s k : ℚ) (l : SupportLayer),
      l ∈ placeLayers c s k ls → ∃ l₀ ∈ ls,
        l.size = l₀.size ∧ l.offset = l₀.offset ∧ l.location = l₀.location ∧
        l.material = l₀.material ∧ l.hole_size = l₀.hole_size ∧
        l.center.x = c.x + l₀.offset.x ∧ l.center.y = c.y + l₀.offset.y ∧
        ((l.location == "sensor") = false → (l.location == "chip") = false →
          l.center = c + l₀.offset) := by
  intro ls
  induction ls with
  | nil => intro c s k l h; simp [placeLayers] at h
  | cons l0 rest ih =>
    intro c s k l h
    cases hsb : (l0.location == "sensor") with
    | true =>
      simp only [placeLayers, hsb, if_true] at h
      rcases List.mem_cons.mp h with heq | hmem
      · subst heq
        refine ⟨l0, List.mem_cons_self _ _, rfl, rfl, rfl, rfl, rfl, ?_, ?_, ?_⟩
        · rw [V3.add_x]
        · rw [V3.add_y]
        · intro hns _
          exact absurd hsb (by rw [hns]; exact Bool.false_ne_true)
      · obtain ⟨l₀, hl₀, hrest⟩ := ih c (s - l0.size.z) k l hmem
        exact ⟨l₀, List.mem_cons_of_mem _ hl₀, hrest⟩
    | false =>
      cases hcb : (l0.location == "chip") with
      | true =>
        simp only [placeLayers, hsb, hcb, if_false, if_true,
          Bool.false_eq_true] at h
        rcases List.mem_cons.mp h with heq | hmem
        · subst heq
          refine ⟨l0, List.mem_cons_self _ _, rfl, rfl, rfl, rfl, rfl, ?_, ?_, ?_⟩
          · rw [V3.add_x]
          · rw [V3.add_y]
          · intro _ hnc
            exact absurd hcb (by rw [hnc]; exact Bool.false_ne_true)
        · obtain ⟨l₀, hl₀, hrest⟩ := ih c s (k + l0.size.z) l hmem
          exact ⟨l₀, List.mem_cons_of_mem _ hl₀, hrest⟩
      | false =>
        simp only [placeLayers, hsb, hcb, if_false, Bool.false_eq_true] at h
        rcases List.mem_cons.mp h with heq | hmem
        · subst heq
          refine ⟨l0, List.mem_cons_self _ _, rfl, rfl, rfl, rfl, rfl, ?_, ?_, ?_⟩
          · rw [V3.add_x]
          · rw [V3.add_y]
          · intro _ _
            rfl
        · obtain ⟨l₀, hl₀, hrest⟩ := ih c s k l hmem
          exact ⟨l₀, List.mem_cons_of_mem _ hl₀, hrest⟩

theorem stackedUpFrom_touching :
    ∀ (ls : List SupportLayer) (z : ℚ), stackedUpFrom z ls →
      ∀ (i : Nat) (h1 : i < ls.length) (h2 : i + 1 < ls.length),
        (ls.get ⟨i + 1, h2⟩).center.z - (ls.get ⟨i + 1, h2⟩).size.z / 2 =
          (ls.get ⟨i, h1⟩).center.z + (ls.get ⟨i, h1⟩).size.z / 2 := by
  intro ls
  induction ls with
  | nil => intro z _ i h1 _; exact absurd h1 (by simp)
  | cons l rest ih =>
    intro z hst i h1 h2
    obtain ⟨hl, hrest⟩ := hst
    cases i with
    | zero =>
      cases rest with
      | nil => simp at h2
      | cons l2 r2 =>
        obtain ⟨hl2, _⟩ := hrest
        show l2.center.z - l2.size.z / 2 = l.center.z + l.size.z / 2
        rw [hl, hl2]
        ring
    | succ j =>
      exact ih (z + l.size.z) hrest j (Nat.lt_of_succ_lt_succ h1)
        (Nat.lt_of_succ_lt_succ h2)

theorem stackedDownFrom_touching :
    ∀ (ls : List SupportLayer) (z : ℚ), stackedDownFrom z ls →
      ∀ (i : Nat) (h1 : i < ls.length) (h2 : i + 1 < ls.length),
        (ls.get ⟨i + 1, h2⟩).center.z + (ls.get ⟨i + 1, h2⟩).size.z / 2 =
          (ls.get ⟨i, h1⟩).center.z - (ls.get ⟨i, h1⟩).size.z / 2 := by
  intro ls
  induction ls with
  | nil => intro z _ i h1 _; exact absurd h1 (by simp)
  | cons l rest ih =>
    intro z hst i h1 h2
    obtain ⟨hl, hrest⟩ := hst
    cases i with
    | zero =>
      cases rest with
      | nil => simp at h2
      | cons l2 r2 =>
        obtain ⟨hl2, _⟩ := hrest
        show l2.center.z + l2.size.z / 2 = l.center.z - l.size.z / 2
        rw [hl, hl2]
        ring
    | succ j =>
      exact ih (z - l.size.z) hrest j (Nat.lt_of_succ_lt_succ h1)
        (Nat.lt_of_succ_lt_succ h2)

end DetectorModel

/-- C3: `getSupportLayers()` places layer centers by two independent running
z-offsets: the "sensor"-side layers are stacked downward from
−sensorSize.z/2, the "chip"-side layers upward from
sensorSize.z/2 + chipSize.z (each layer's center at the running offset ±
half its own thickness, the offset then advancing by the full thickness, so
consecutive same-side layers touch exactly); "absolute" layers use their
configured offset unmodified relative to the model center, and every layer
keeps its configured in-plane offset. -/
theorem C3_supportLayers_stacking (m : DetectorModel) :
    (∀ l ∈ m.getSupportLayers, ∃ l₀ ∈ m.support_layers,
      l.size = l₀.size ∧ l.offset = l₀.offset ∧ l.location = l₀.location ∧
      l.center.x = m.getCenter.x + l₀.offset.x ∧
      l.center.y = m.getCenter.y + l₀.offset.y ∧
      (l.location = "absolute" → l.center = m.getCenter + l₀.offset)) ∧
    DetectorModel.stackedDownFrom (m.getCenter.z - m.getSensorSize.z / 2)
      (m.getSupportLayers.filter (fun l => l.location == "sensor")) ∧
    DetectorModel.stackedUpFrom
      (m.getCenter.z + (m.getSensorSize.z / 2 + m.getChipSize.z))
      (m.getSupportLayers.filter (fun l => l.location == "chip")) ∧
    (∀ (i : Nat)
      (h1 : i < (m.getSupportLayers.filter
        (fun l => l.location == "sensor")).length)
      (h2 : i + 1 < (m.getSupportLayers.filter
        (fun l => l.location == "sensor")).length),
      ((m.getSupportLayers.filter (fun l => l.location == "sensor")).get
          ⟨i + 1, h2⟩).center.z +
        ((m.getSupportLayers.filter (fun l => l.location == "sensor")).get
          ⟨i + 1, h2⟩).size.z / 2 =
      ((m.getSupportLayers.filter (fun l => l.location == "sensor")).get
          ⟨i, h1⟩).center.z -
        ((m.getSupportLayers.filter (fun l => l.location == "sensor")).get
          ⟨i, h1⟩).size.z / 2) ∧
    (∀ (i : Nat)
      (h1 : i < (m.getSupportLayers.filter
        (fun l => l.location == "chip")).length)
      (h2 : i + 1 < (m.getSupportLayers.filter
        (fun l => l.location == "chip")).length),
      ((m.getSupportLayers.filter (fun l => l.location == "chip")).get
          ⟨i + 1, h2⟩).center.z -
        ((m.getSupportLayers.filter (fun l => l.location == "chip")).get
          ⟨i + 1, h2⟩).size.z / 2 =
      ((m.getSupportLayers.filter (fun l => l.location == "chip")).get
          ⟨i, h1⟩).center.z +
        ((m.getSupportLayers.filter (fun l => l.location == "chip")).get
          ⟨i, h1⟩).size.z / 2) := by
  have hsen := DetectorModel.placeLayers_sensor_stacked m.support_layers
    m.getCenter (-(m.getSensorSize.z / 2)) (m.getSensorSize.z / 2 + m.getChipSize.z)
  have hchip := DetectorModel.placeLayers_chip_stacked m.support_layers
    m.getCenter (-(m.getSensorSize.z / 2)) (m.getSensorSize.z / 2 + m.getChipSize.z)
  have heqs : m.getCenter.z + -(m.getSensorSize.z / 2) =
      m.getCenter.z - m.getSensorSize.z / 2 := by ring
  rw [heqs] at hsen
  refine ⟨?_, hsen, hchip, ?_, ?_⟩
  · intro l hl
    obtain ⟨l₀, hl₀, h1, h2, h3, h4, h5, h6, h7, h8⟩ :=
      DetectorModel.placeLayers_mem m.support_layers m.getCenter
        (-(m.getSensorSize.z / 2)) (m.getSensorSize.z / 2 + m.getChipSize.z) l hl
    refine ⟨l₀, hl₀, h1, h2, h3, h6, h7, ?_⟩
    intro habs
    refine h8 ?_ ?_
    · rw [habs]; decide
    · rw [habs]; decide
  · intro i h1 h2
    exact DetectorModel.stackedDownFrom_touching _ _ hsen i h1 h2
  · intro i h1 h2
    exact DetectorModel.stackedUpFrom_touching _ _ hchip i h1 h2

/-- C7: `addPoint`, `addModel` and `addDetector` reject post-close calls;
`addModel` and `addDetector` additionally reject null arguments (the closed
check comes first), `addDetector` rejects the reserved name `"global"` and
duplicate detector names, `addModel` rejects duplicate model type names; in
every error case the manager is returned unchanged.  (`addPoint` takes its
point by value, so no null-argument case exists for it.) -/
theorem C7_add_rejections (gm : GeometryManager) (p : V3) (mo : Option MModel)
    (dopt : Option Detector) :
    (gm.closed = true →
      gm.addPoint p = (gm, some (Err.moduleError
        "Geometry is already closed before adding detector")) ∧
      gm.addModel mo = (gm, some (Err.moduleError
        "Geometry is already closed before adding detector")) ∧
      gm.addDetector dopt = (gm, some (Err.moduleError
        "Geometry is already closed before adding detector"))) ∧
    (gm.closed = false →
      gm.addModel none = (gm, some (Err.invalidModuleAction
        "Added model cannot be a null pointer")) ∧
      gm.addDetector none = (gm, some (Err.invalidModuleAction
        "Added detector cannot be a null pointer"))) ∧
    (∀ mm : MModel, gm.closed = false →
      gm.model_names.contains mm.dm.type = true →
      gm.addModel (some mm) = (gm, some (Err.detectorModelExists mm.dm.type))) ∧
    (∀ dd : Detector, gm.closed = false → dd.name = "global" →
      gm.addDetector (some dd) = (gm, some (Err.detectorInvalidName dd.name))) ∧
    (∀ dd : Detector, gm.closed = false → dd.name ≠ "global" →
      gm.detector_names.contains dd.name = true →
      gm.addDetector (some dd) = (gm, some (Err.detectorExists dd.name))) := by
  refine ⟨?_, ?_, ?_, ?_, ?_⟩
  · intro h
    refine ⟨?_, ?_, ?_⟩ <;>
      simp [GeometryManager.addPoint, GeometryManager.addModel,
        GeometryManager.addDetector, h]
  · intro h
    refine ⟨?_, ?_⟩ <;>
      simp [GeometryManager.addModel, GeometryManager.addDetector, h]
  · intro mm h hdup
    simp [GeometryManager.addModel, h, hdup]
    simpa using hdup
  · intro dd h hglob
    simp [GeometryManager.addDetector, h, hglob]
  · intro dd h hglob hdup
    have hg : (dd.name == "global") = false := by
      simp [hglob]
    simp [GeometryManager.addDetector, h, hg, hdup]
    simpa using hdup

/-- `close_geometry` always marks the result closed. -/
theorem close_geometry_closed (gm gm1 : GeometryManager)
    (h : gm.close_geometry = Except.ok gm1) : gm1.closed = true := by
  unfold GeometryManager.close_geometry at h
  cases hres : resolveAll gm.models (flattenPending gm.nonresolved_models)
      gm.next_id with
  | error e => rw [hres] at h; cases h
  | ok pr =>
    obtain ⟨asgns, nid⟩ := pr
    rw [hres] at h
    cases h
    rfl

/-- `ensureClosed` always yields a closed manager on success. -/
theorem ensureClosed_closed (gm g1 : GeometryManager)
    (h : gm.ensureClosed = Except.ok g1) : g1.closed = true := by
  unfold GeometryManager.ensureClosed at h
  by_cases hc : gm.closed = true
  · rw [if_pos hc] at h
    cases h
    exact hc
  · rw [if_neg hc] at h
    exact close_geometry_closed gm g1 h

/-- C6 counterexample at a concrete open manager: `getModels` is a `const`
accessor; it returns the model list without closing the geometry, although
closing the same manager would have succeeded and marked it closed. -/
theorem C6_counterexample :
    gmEmpty.closed = false ∧
    gmEmpty.getModels = (gmEmpty.models, gmEmpty) ∧
    (gmEmpty.getModels).2.closed = false ∧
    gmEmpty.close_geometry =
      Except.ok { gmEmpty with closed := true } ∧
    ({ gmEmpty with closed := true } : GeometryManager).closed = true := by
  refine ⟨rfl, rfl, rfl, ?_, rfl⟩
  decide

/-- C6 (amended): the accessors that trigger geometry closing are
`getDetectors`, `getDetector`, `getDetectorsByType`, `getMinimumCoordinate`
and `getMaximumCoordinate` — after any successful such call the manager is
closed; `getModels` is `const` and performs no closing. -/
theorem C6_amended_closing_accessors (gm : GeometryManager) :
    (∀ ds gm1, gm.getDetectors = Except.ok (ds, gm1) → gm1.closed = true) ∧
    (∀ name d gm1, gm.getDetector name = Except.ok (d, gm1) →
      gm1.closed = true) ∧
    (∀ ty ds gm1, gm.getDetectorsByType ty = Except.ok (ds, gm1) →
      gm1.closed = true) ∧
    (∀ v gm1, gm.getMinimumCoordinate = Except.ok (v, gm1) →
      gm1.closed = true) ∧
    (∀ v gm1, gm.getMaximumCoordinate = Except.ok (v, gm1) →
      gm1.closed = true) ∧
    gm.getModels = (gm.models, gm) := by
  refine ⟨?_, ?_, ?_, ?_, ?_, rfl⟩
  · intro ds gm1 h
    unfold GeometryManager.getDetectors at h
    split at h
    next e heq => cases h
    next g heq =>
      cases h
      exact ensureClosed_closed gm _ heq
  · intro name d gm1 h
    unfold GeometryManager.getDetector at h
    split at h
    next e heq => cases h
    next g heq =>
      split at h
      next dd hfind =>
        cases h
        exact ensureClosed_closed gm _ heq
      next hfind => cases h
  · intro ty ds gm1 h
    unfold GeometryManager.getDetectorsByType at h
    split at h
    next e heq => cases h
    next g heq =>
      split at h
      · cases h
      · cases h
        exact ensureClosed_closed gm _ heq
  · intro v gm1 h
    unfold GeometryManager.getMinimumCoordinate at h
    split at h
    next e heq => cases h
    next g heq =>
      cases h
      exact ensureClosed_closed gm _ heq
  · intro v gm1 h
    unfold GeometryManager.getMaximumCoordinate at h
    split at h
    next e heq => cases h
    next g heq =>
      cases h
      exact ensureClosed_closed gm _ heq

/-- C8: closing is idempotent — on an already-closed manager every
closing-triggering accessor performs no model loading and no mutation: the
manager state it returns is the manager itself (so the closed flag and the
detector, model and point registries are unchanged). -/
theorem C8_closing_idempotent (gm : GeometryManager) (h : gm.closed = true)
    (name ty : String) :
    gm.getDetectors = Except.ok (gm.detectors, gm) ∧
    (∀ d gm2, gm.getDetector name = Except.ok (d, gm2) → gm2 = gm) ∧
    (∀ ds gm2, gm.getDetectorsByType ty = Except.ok (ds, gm2) → gm2 = gm) ∧
    (∃ v, gm.getMinimumCoordinate = Except.ok (v, gm)) ∧
    (∃ v, gm.getMaximumCoordinate = Except.ok (v, gm)) := by
  have hens : gm.ensureClosed = Except.ok gm := by
    unfold GeometryManager.ensureClosed
    rw [if_pos h]
  refine ⟨?_, ?_, ?_, ?_, ?_⟩
  · unfold GeometryManager.getDetectors
    rw [hens]
  · intro d gm2 hc
    unfold GeometryManager.getDetector at hc
    rw [hens] at hc
    have hc2 : (match gm.detectors.find? (fun dd => dd.name == name) with
        | some dd => Except.ok (dd, gm)
        | none => Except.error (Err.invalidDetector name)) =
        Except.ok (d, gm2) := hc
    cases hfind : gm.detectors.find? (fun dd => dd.name == name) with
    | some dd => rw [hfind] at hc2; cases hc2; rfl
    | none => rw [hfind] at hc2; cases hc2
  · intro ds gm2 hc
    unfold GeometryManager.getDetectorsByType at hc
    rw [hens] at hc
    have hc2 : (if (gm.detectors.filter
          (fun d => d.getType == some ty)).isEmpty then
        (Except.error (Err.invalidModel ty) :
          Except Err (List Detector × GeometryManager))
      else
        Except.ok (gm.detectors.filter (fun d => d.getType == some ty), gm)) =
        Except.ok (ds, gm2) := hc
    by_cases hemp :
        (gm.detectors.filter (fun d => d.getType == some ty)).isEmpty = true
    · rw [if_pos hemp] at hc2
      cases hc2
    · rw [if_neg hemp] at hc2
      cases hc2
      rfl
  · exact ⟨_, by unfold GeometryManager.getMinimumCoordinate; rw [hens]⟩
  · exact ⟨_, by unfold GeometryManager.getMaximumCoordinate; rw [hens]⟩

/-- Witness for C8 at a concrete closed manager. -/
theorem C8_closing_idempotent_witness :
    gmClosedEmpty.closed = true ∧
    (gmClosedEmpty.getDetectors =
        Except.ok (gmClosedEmpty.detectors, gmClosedEmpty) ∧
      (∀ d gm2, gmClosedEmpty.getDetector "a" = Except.ok (d, gm2) →
        gm2 = gmClosedEmpty) ∧
      (∀ ds gm2, gmClosedEmpty.getDetectorsByType "b" = Except.ok (ds, gm2) →
        gm2 = gmClosedEmpty) ∧
      (∃ v, gmClosedEmpty.getMinimumCoordinate = Except.ok (v, gmClosedEmpty)) ∧
      (∃ v, gmClosedEmpty.getMaximumCoordinate = Except.ok (v, gmClosedEmpty))) :=
  ⟨rfl, C8_closing_idempotent gmClosedEmpty rfl "a" "b"⟩

theorem foldV3_min_le_seed :
    ∀ (pts : List V3) (seed : V3),
      (pts.foldl (fun acc q =>
        (⟨min acc.x q.x, min acc.y q.y, min acc.z q.z⟩ : V3)) seed).x ≤ seed.x ∧
      (pts.foldl (fun acc q =>
        (⟨min acc.x q.x, min acc.y q.y, min acc.z q.z⟩ : V3)) seed).y ≤ seed.y ∧
      (pts.foldl (fun acc q =>
        (⟨min acc.x q.x, min acc.y q.y, min acc.z q.z⟩ : V3)) seed).z ≤ seed.z := by
  intro pts
  induction pts with
  | nil => intro seed; exact ⟨le_refl _, le_refl _, le_refl _⟩
  | cons q t ih =>
    intro seed
    have h := ih ⟨min seed.x q.x, min seed.y q.y, min seed.z q.z⟩
    exact ⟨le_trans h.1 (min_le_left _ _), le_trans h.2.1 (min_le_left _ _),
      le_trans h.2.2 (min_le_left _ _)⟩

theorem foldV3_seed_le_max :
    ∀ (pts : List V3) (seed : V3),
      seed.x ≤ (pts.foldl (fun acc q =>
        (⟨max acc.x q.x, max acc.y q.y, max acc.z q.z⟩ : V3)) seed).x ∧
      seed.y ≤ (pts.foldl (fun acc q =>
        (⟨max acc.x q.x, max acc.y q.y, max acc.z q.z⟩ : V3)) seed).y ∧
      seed.z ≤ (pts.foldl (fun acc q =>
        (⟨max acc.x q.x, max acc.y q.y, max acc.z q.z⟩ : V3)) seed).z := by
  intro pts
  induction pts with
  | nil => intro seed; exact ⟨le_refl _, le_refl _, le_refl _⟩
  | cons q t ih =>
    intro seed
    have h := ih ⟨max seed.x q.x, max seed.y q.y, max seed.z q.z⟩
    exact ⟨le_trans (le_max_left _ _) h.1, le_trans (le_max_left _ _) h.2.1,
      le_trans (le_max_left _ _) h.2.2⟩

theorem applyAssignments_nil : ∀ asgns, applyAssignments [] asgns = [] := by
  intro asgns
  induction asgns with
  | nil => rfl
  | cons a t ih =>
    show applyAssignments (setModelAt [] a.1 a.2) t = []
    exact ih

/-- On success, `ensureClosed` keeps the point registry, and keeps the
detector list empty when it was empty. -/
theorem ensureClosed_parts (gm g : GeometryManager)
    (h : gm.ensureClosed = Except.ok g) :
    g.points = gm.points ∧ (gm.detectors = [] → g.detectors = []) := by
  unfold GeometryManager.ensureClosed at h
  by_cases hc : gm.closed = true
  · rw [if_pos hc] at h
    cases h
    exact ⟨rfl, fun hd => hd⟩
  · rw [if_neg hc] at h
    unfold GeometryManager.close_geometry at h
    split at h
    next e heq => cases h
    next asgns nid heq =>
      cases h
      refine ⟨rfl, fun hd => ?_⟩
      show applyAssignments gm.detectors asgns = []
      rw [hd]
      exact applyAssignments_nil asgns

/-- C9: the global bounding box always contains the origin — every
component of `getMinimumCoordinate` is ≤ 0 and every component of
`getMaximumCoordinate` is ≥ 0 (the folds over all transformed detector
corners and free-standing points are seeded at the origin); for an empty
geometry both minimum and maximum equal (0,0,0). -/
theorem C9_bbox_contains_origin (gm : GeometryManager) :
    (∀ v gm1, gm.getMinimumCoordinate = Except.ok (v, gm1) →
      v.x ≤ 0 ∧ v.y ≤ 0 ∧ v.z ≤ 0) ∧
    (∀ v gm1, gm.getMaximumCoordinate = Except.ok (v, gm1) →
      0 ≤ v.x ∧ 0 ≤ v.y ∧ 0 ≤ v.z) ∧
    (gm.detectors = [] → gm.points = [] →
      ∀ v gm1, gm.getMinimumCoordinate = Except.ok (v, gm1) → v = ⟨0, 0, 0⟩) ∧
    (gm.detectors = [] → gm.points = [] →
      ∀ v gm1, gm.getMaximumCoordinate = Except.ok (v, gm1) → v = ⟨0, 0, 0⟩) ∧
    gmEmpty.getMinimumCoordinate =
      Except.ok (⟨0, 0, 0⟩, { gmEmpty with closed := true }) ∧
    gmEmpty.getMaximumCoordinate =
      Except.ok (⟨0, 0, 0⟩, { gmEmpty with closed := true }) := by
  refine ⟨?_, ?_, ?_, ?_, rfl, rfl⟩
  · intro v gm1 h
    unfold GeometryManager.getMinimumCoordinate at h
    split at h
    next e heq => cases h
    next g heq =>
      cases h
      exact foldV3_min_le_seed _ _
  · intro v gm1 h
    unfold GeometryManager.getMaximumCoordinate at h
    split at h
    next e heq => cases h
    next g heq =>
      cases h
      exact foldV3_seed_le_max _ _
  · intro hdet hpts v gm1 h
    unfold GeometryManager.getMinimumCoordinate at h
    split at h
    next e heq => cases h
    next g heq =>
      obtain ⟨hp, hd⟩ := ensureClosed_parts gm g heq
      have hd2 := hd hdet
      cases h
      rw [hd2, hp, hpts]
      rfl
  · intro hdet hpts v gm1 h
    unfold GeometryManager.getMaximumCoordinate at h
    split at h
    next e heq => cases h
    next g heq =>
      obtain ⟨hp, hd⟩ := ensureClosed_parts gm g heq
      have hd2 := hd hdet
      cases h
      rw [hd2, hp, hpts]
      rfl

/-- `getModelByType` returns a registered model. -/
theorem getModelByType_mem (models : List MModel) (ty : String) (g : MModel)
    (h : GeometryManager.getModelByType models ty = Except.ok g) :
    g ∈ models := by
  unfold GeometryManager.getModelByType at h
  cases hfind : models.find? (fun m => m.dm.type == ty) with
  | none => rw [hfind] at h; cases h
  | some m =>
    rw [hfind] at h
    cases h
    exact List.mem_of_find?_eq_some hfind

/-- Dissection of `resolve_one`: on success it either hands back the generic
model unchanged (no overrides, counter untouched) or a freshly allocated
instance holding the re-parsed specialized model (counter advanced). -/
theorem resolve_one_spec (models : List MModel) (ty : String) (cfg : Cfg)
    (nid : Nat) (m : MModel) (nid1 : Nat)
    (h : resolve_one models ty cfg nid = Except.ok (m, nid1)) :
    ∃ g, GeometryManager.getModelByType models ty = Except.ok g ∧
      ((((buildOverlay cfg).countSettings != 0) = false ∧ m = g ∧
          nid1 = nid) ∨
        (((buildOverlay cfg).countSettings != 0) = true ∧ nid1 = nid + 1 ∧
          m.id = nid ∧
          ∃ dm, parse_config ty (buildOverlay cfg :: g.dm.getConfigurations) =
              Except.ok dm ∧ m.dm = dm)) := by
  unfold resolve_one at h
  cases hg : GeometryManager.getModelByType models ty with
  | error e => rw [hg] at h; cases h
  | ok model =>
    rw [hg] at h
    have h2 : (if ((buildOverlay cfg).countSettings != 0) = true then
        match parse_config ty (buildOverlay cfg :: model.dm.getConfigurations) with
        | Except.error e => (Except.error e : Except Err (MModel × Nat))
        | Except.ok dm => Except.ok (⟨nid, dm⟩, nid + 1)
      else Except.ok (model, nid)) = Except.ok (m, nid1) := h
    by_cases hov : ((buildOverlay cfg).countSettings != 0) = true
    · rw [if_pos hov] at h2
      cases hp : parse_config ty (buildOverlay cfg :: model.dm.getConfigurations) with
      | error e => rw [hp] at h2; cases h2
      | ok dm =>
        rw [hp] at h2
        cases h2
        exact ⟨model, rfl, Or.inr ⟨hov, rfl, rfl, dm, hp, rfl⟩⟩
    · rw [if_neg hov] at h2
      cases h2
      exact ⟨_, rfl, Or.inl ⟨by simpa using hov, rfl, rfl⟩⟩

/-- `countOverrides` over a cons. -/
theorem countOverrides_cons (e : String × Cfg × Nat)
    (l : List (String × Cfg × Nat)) :
    countOverrides (e :: l) =
      (if hasOverride e then 1 else 0) + countOverrides l := by
  unfold countOverrides
  rw [List.filter_cons]
  by_cases hov : hasOverride e = true
  · rw [if_pos hov, if_pos hov]
    simp [Nat.add_comm]
  · rw [if_neg hov, if_neg hov]
    simp

/-- The full description of a successful resolution run: the assignment
list pairs each pending detector, in order, with its resolved model — the
generic instance when the overlay is empty, otherwise a fresh instance
(allocated at `nid` plus the number of preceding override entries) holding
the model re-parsed from the overlay prepended to the generic model's
sections. -/
theorem resolveAll_get :
    ∀ (flat : List (String × Cfg × Nat)) (models : List MModel)
      (nid nid2 : Nat) (asgns : List (Nat × MModel)),
      resolveAll models flat nid = Except.ok (asgns, nid2) →
      asgns.length = flat.length ∧
      nid2 = nid + countOverrides flat ∧
      ∀ (i : Nat) (h1 : i < flat.length) (h2 : i < asgns.length),
        (asgns.get ⟨i, h2⟩).1 = (flat.get ⟨i, h1⟩).2.2 ∧
        ∃ g, GeometryManager.getModelByType models (flat.get ⟨i, h1⟩).1 =
            Except.ok g ∧
          (hasOverride (flat.get ⟨i, h1⟩) = false →
            (asgns.get ⟨i, h2⟩).2 = g) ∧
          (hasOverride (flat.get ⟨i, h1⟩) = true →
            (asgns.get ⟨i, h2⟩).2.id = nid + countOverrides (flat.take i) ∧
            ∃ dm, parse_config (flat.get ⟨i, h1⟩).1
                (buildOverlay (flat.get ⟨i, h1⟩).2.1 ::
                  g.dm.getConfigurations) = Except.ok dm ∧
              (asgns.get ⟨i, h2⟩).2.dm = dm) := by
  intro flat
  induction flat with
  | nil =>
    intro models nid nid2 asgns h
    cases h
    refine ⟨rfl, by simp [countOverrides], ?_⟩
    intro i h1
    exact absurd h1 (by simp)
  | cons e rest ih =>
    intro models nid nid2 asgns h
    obtain ⟨ty, cfg, d⟩ := e
    unfold resolveAll at h
    split at h
    next e2 heq1 => cases h
    next m nid1 heq1 =>
      split at h
      next e2 heq2 => cases h
      next tail nidr heq2 =>
        cases h
        obtain ⟨hlen, htot, hidx⟩ := ih models nid1 _ tail heq2
        obtain ⟨g, hg, hcases⟩ := resolve_one_spec models ty cfg nid m nid1 heq1
        have hovcons : countOverrides ((ty, cfg, d) :: rest) =
            (if hasOverride (ty, cfg, d) then 1 else 0) + countOverrides rest :=
          countOverrides_cons _ _
        have hnid1 : nid1 = nid + (if hasOverride (ty, cfg, d) then 1 else 0) := by
          rcases hcases with ⟨hov, _, hn⟩ | ⟨hov, hn, _⟩
          · rw [hn]
            have : hasOverride (ty, cfg, d) = false := hov
            rw [this]
            simp
          · rw [hn]
            have : hasOverride (ty, cfg, d) = true := hov
            rw [this]
            simp
        refine ⟨by simp [hlen], ?_, ?_⟩
        · rw [htot, hnid1, hovcons]
          omega
        · intro i h1 h2
          cases i with
          | zero =>
            refine ⟨rfl, g, hg, ?_, ?_⟩
            · intro hov
              have hovb : ((buildOverlay cfg).countSettings != 0) = false := hov
              rcases hcases with ⟨_, hm, _⟩ | ⟨hov2, _, _, _⟩
              · exact hm
              · rw [hovb] at hov2; cases hov2
            · intro hov
              have hovb : ((buildOverlay cfg).countSettings != 0) = true := hov
              rcases hcases with ⟨hov2, _, _⟩ | ⟨_, _, hid, dm, hp, hdm⟩
              · rw [hovb] at hov2; cases hov2
              · refine ⟨?_, dm, hp, hdm⟩
                show m.id = nid + countOverrides (List.take 0 ((ty, cfg, d) :: rest))
                rw [hid]
                simp [countOverrides]
          | succ j =>
            have hj1 : j < rest.length := Nat.lt_of_succ_lt_succ h1
            have hj2 : j < tail.length := Nat.lt_of_succ_lt_succ h2
            obtain ⟨ha1, g2, hg2, hnoov, hov⟩ := hidx j hj1 hj2
            refine ⟨ha1, g2, hg2, hnoov, ?_⟩
            intro hovj
            obtain ⟨hid, hrestov⟩ := hov hovj
            refine ⟨?_, hrestov⟩
            show (tail.get ⟨j, hj2⟩).2.id =
              nid + countOverrides (((ty, cfg, d) :: rest).take (j + 1))
            have htake : ((ty, cfg, d) :: rest).take (j + 1) =
                (ty, cfg, d) :: rest.take j := rfl
            rw [hid, hnid1, htake, countOverrides_cons]
            omega

theorem find?_filter_of_imp {α : Type} (p q : α → Bool) :
    ∀ (l : List α), (∀ x, p x = true → q x = true) →
      (l.filter q).find? p = l.find? p := by
  intro l h
  induction l with
  | nil => rfl
  | cons a t ih =>
    rw [List.filter_cons]
    by_cases hq : q a = true
    · rw [if_pos hq]
      by_cases hp : p a = true
      · rw [List.find?_cons_of_pos _ hp, List.find?_cons_of_pos _ hp]
      · rw [List.find?_cons_of_neg _ hp, List.find?_cons_of_neg _ hp, ih]
    · rw [if_neg hq]
      have hp : ¬ p a = true := fun hpa => hq (h a hpa)
      rw [List.find?_cons_of_neg _ hp, ih]

/-- Key lookup through `Configuration::merge`: the merging configuration's
keys take precedence, the merged one only fills gaps. -/
theorem Cfg.find_merge (a b : Cfg) (k : String) :
    (a.merge b).find k = (a.find k).or (b.find k) := by
  show ((a.entries ++
      b.entries.filter (fun kv => !(a.hasKey kv.1))).find?
        (fun kv => kv.1 == k)).map (fun kv => kv.2) =
    ((a.entries.find? (fun kv => kv.1 == k)).map (fun kv => kv.2)).or
      ((b.entries.find? (fun kv => kv.1 == k)).map (fun kv => kv.2))
  rw [List.find?_append]
  cases ha : a.entries.find? (fun kv => kv.1 == k) with
  | some kv => simp [Option.or]
  | none =>
    have hnk : a.hasKey k = false := by
      unfold Cfg.hasKey
      rw [List.any_eq_false]
      intro kv hkv
      exact List.find?_eq_none.mp ha kv hkv
    have hfilt : (b.entries.filter (fun kv => !(a.hasKey kv.1))).find?
        (fun kv => kv.1 == k) = b.entries.find? (fun kv => kv.1 == k) := by
      refine find?_filter_of_imp _ _ b.entries ?_
      intro kv hkv
      have : kv.1 = k := eq_of_beq hkv
      rw [this, hnk]
      rfl
    rw [hfilt]
    simp [Option.or]

theorem foldl_merge_find :
    ∀ (l : List Cfg) (a : Cfg) (k : String),
      (l.foldl Cfg.merge a).find k = (a.find k).or (findChain k l) := by
  intro l
  induction l with
  | nil =>
    intro a k
    show a.find k = (a.find k).or none
    cases a.find k <;> rfl
  | cons c t ih =>
    intro a k
    show (t.foldl Cfg.merge (a.merge c)).find k = _
    rw [ih (a.merge c) k, Cfg.find_merge]
    show ((a.find k).or (c.find k)).or (findChain k t) =
      (a.find k).or ((c.find k).or (findChain k t))
    exact Option.or_assoc

/-- Overlay precedence in the header of a re-parse reader: a key defined in
the first (overlay) section wins; other keys fall through to the remaining
sections' merged header. -/
theorem headerConfiguration_overlay (ov : Cfg) (cs : List Cfg) (k : String)
    (hov : (ov.name == "") = true) :
    (headerConfiguration (ov :: cs)).find k =
      (ov.find k).or ((headerConfiguration cs).find k) := by
  unfold headerConfiguration
  rw [List.filter_cons, if_pos hov]
  show ((cs.filter (fun c => c.name == "")).foldl Cfg.merge ov).find k = _
  rw [foldl_merge_find]
  cases hcs : cs.filter (fun c => c.name == "") with
  | nil => rfl
  | cons c rest =>
    show (ov.find k).or (findChain k (c :: rest)) =
      (ov.find k).or ((rest.foldl Cfg.merge c).find k)
    rw [foldl_merge_find]
    rfl

theorem buildOverlay_loop :
    ∀ (entries : List (String × Val)) (acc : Cfg),
      acc.name = "" →
      (∀ kv ∈ entries, acc.hasKey kv.1 = false) →
      (entries.map Prod.fst).Nodup →
      entries.foldl
        (fun nc kv => if internalKey kv.1 then nc else nc.setText kv.1 kv.2)
        acc =
      ⟨"", acc.entries ++ entries.filter (fun kv => !(internalKey kv.1))⟩ := by
  intro entries
  induction entries with
  | nil =>
    intro acc hn _ _
    obtain ⟨n, e⟩ := acc
    dsimp only at hn
    subst hn
    show (⟨"", e⟩ : Cfg) = ⟨"", e ++ List.filter (fun kv => !(internalKey kv.1)) []⟩
    rw [List.filter_nil, List.append_nil]
  | cons kv t ih =>
    intro acc hn hk hnodup
    obtain ⟨hhead, htail⟩ := List.nodup_cons.mp hnodup
    by_cases hint : internalKey kv.1 = true
    · show t.foldl _ (if internalKey kv.1 then acc else acc.setText kv.1 kv.2) = _
      rw [if_pos hint]
      rw [ih acc hn (fun kv2 h2 => hk kv2 (List.mem_cons_of_mem _ h2)) htail]
      rw [List.filter_cons]
      have : (!(internalKey kv.1)) = false := by rw [hint]; rfl
      rw [this, if_neg (by simp)]
    · show t.foldl _ (if internalKey kv.1 then acc else acc.setText kv.1 kv.2) = _
      rw [if_neg hint]
      have hnk : acc.hasKey kv.1 = false := hk kv (List.mem_cons_self _ _)
      have hset : acc.setText kv.1 kv.2 = ⟨acc.name, acc.entries ++ [kv]⟩ := by
        unfold Cfg.setText
        rw [hnk]
        rfl
      rw [hset, hn]
      have hk2 : ∀ kv2 ∈ t,
          (⟨"", acc.entries ++ [kv]⟩ : Cfg).hasKey kv2.1 = false := by
        intro kv2 h2
        unfold Cfg.hasKey
        rw [List.any_eq_false]
        intro e he
        rcases List.mem_append.mp he with hmem | hmem
        · have := hk kv2 (List.mem_cons_of_mem _ h2)
          unfold Cfg.hasKey at this
          rw [List.any_eq_false] at this
          exact this e hmem
        · have he2 : e = kv := List.mem_singleton.mp hmem
          intro hbeq
          have h12 : kv2.1 = kv.1 := by
            rw [← he2]
            exact (eq_of_beq hbeq).symm
          exact hhead (h12 ▸ List.mem_map_of_mem Prod.fst h2)
      rw [ih ⟨"", acc.entries ++ [kv]⟩ rfl hk2 htail]
      rw [List.filter_cons]
      have hfalse : internalKey kv.1 = false := by simpa using hint
      have hbn : (!(internalKey kv.1)) = true := by rw [hfalse]; rfl
      rw [hbn, if_pos rfl]
      simp

/-- The overlay configuration holds exactly the non-placement keys of the
detector section (whose keys, coming from a `std::map`, are unique). -/
theorem buildOverlay_eq_filter (cfg : Cfg)
    (h : (cfg.entries.map Prod.fst).Nodup) :
    buildOverlay cfg =
      ⟨"", cfg.entries.filter (fun kv => !(internalKey kv.1))⟩ := by
  unfold buildOverlay Cfg.getAll
  have := buildOverlay_loop cfg.entries ⟨"", []⟩ rfl
    (fun kv _ => rfl) h
  rw [this]
  rw [show (⟨"", []⟩ : Cfg).entries = [] from rfl, List.nil_append]

theorem buildOverlay_name (cfg : Cfg) : (buildOverlay cfg).name = "" := by
  unfold buildOverlay
  have loop : ∀ (l : List (String × Val)) (acc : Cfg), acc.name = "" →
      (l.foldl (fun nc kv =>
        if internalKey kv.1 then nc else nc.setText kv.1 kv.2) acc).name = "" := by
    intro l
    induction l with
    | nil => intro acc hn; exact hn
    | cons kv t ih =>
      intro acc hn
      show (t.foldl _ (if internalKey kv.1 then acc else acc.setText kv.1 kv.2)).name = ""
      by_cases hint : internalKey kv.1 = true
      · rw [if_pos hint]; exact ih acc hn
      · rw [if_neg hint]
        refine ih _ ?_
        show (acc.setText kv.1 kv.2).name = ""
        unfold Cfg.setText
        by_cases hkk : acc.hasKey kv.1 = true
        · rw [if_pos hkk]; exact hn
        · rw [if_neg hkk]; exact hn
  exact loop cfg.entries ⟨"", []⟩ rfl

theorem countOverrides_take_succ (flat : List (String × Cfg × Nat)) (i : Nat)
    (hi : i < flat.length) :
    countOverrides (flat.take (i + 1)) =
      countOverrides (flat.take i) +
        (if hasOverride (flat.get ⟨i, hi⟩) then 1 else 0) := by
  unfold countOverrides
  rw [List.take_succ, List.filter_append, List.length_append]
  congr 1
  have hget : flat[i]? = some (flat.get ⟨i, hi⟩) :=
    List.getElem?_eq_getElem hi
  rw [hget]
  show (List.filter hasOverride [flat.get ⟨i, hi⟩]).length = _
  by_cases hov : hasOverride (flat.get ⟨i, hi⟩) = true
  · rw [List.filter_cons, if_pos hov, if_pos hov]
    rfl
  · rw [List.filter_cons, if_neg hov, if_neg hov]
    rfl

theorem countOverrides_take_le (flat : List (String × Cfg × Nat)) (i j : Nat)
    (hij : i ≤ j) :
    countOverrides (flat.take i) ≤ countOverrides (flat.take j) := by
  unfold countOverrides
  have h1 : (flat.take j).take i = flat.take i := by
    rw [List.take_take, Nat.min_eq_left hij]
  have h2 : List.Sublist (flat.take i) (flat.take j) := by
    rw [← h1]
    exact List.take_sublist i (flat.take j)
  exact List.Sublist.length_le (List.Sublist.filter _ h2)

theorem countOverrides_take_lt (flat : List (String × Cfg × Nat)) (i j : Nat)
    (hi : i < flat.length) (hij : i < j)
    (hov : hasOverride (flat.get ⟨i, hi⟩) = true) :
    countOverrides (flat.take i) < countOverrides (flat.take j) := by
  have h1 : countOverrides (flat.take (i + 1)) =
      countOverrides (flat.take i) + 1 := by
    rw [countOverrides_take_succ flat i hi, hov]
    simp
  have h2 : countOverrides (flat.take (i + 1)) ≤
      countOverrides (flat.take j) :=
    countOverrides_take_le flat (i + 1) j hij
  omega

/-- C4: during geometry closing, every pending (detector, requested-type)
pair is resolved in order: a pair whose detector section has no keys beyond
`type`, `position`, `orientation` and `orientation_mode` is assigned the
generic model instance of its type; a pair with extra keys is assigned a
freshly allocated instance (id at or above the pre-close allocation
counter) holding the model re-parsed from the overlay of exactly those
extra keys prepended to the generic model's configuration sections, the
overlay keys taking precedence in the merged header. -/
theorem C4_model_specialization (gm gm2 : GeometryManager)
    (h : gm.close_geometry = Except.ok gm2) :
    ∃ asgns nid,
      resolveAll gm.models (flattenPending gm.nonresolved_models)
          gm.next_id = Except.ok (asgns, nid) ∧
      gm2 = { gm with
        detectors := applyAssignments gm.detectors asgns
        next_id := nid
        closed := true } ∧
      asgns.length = (flattenPending gm.nonresolved_models).length ∧
      (∀ (i : Nat) (h1 : i < (flattenPending gm.nonresolved_models).length)
          (h2 : i < asgns.length),
        (asgns.get ⟨i, h2⟩).1 =
          ((flattenPending gm.nonresolved_models).get ⟨i, h1⟩).2.2 ∧
        ∃ g, GeometryManager.getModelByType gm.models
            ((flattenPending gm.nonresolved_models).get ⟨i, h1⟩).1 =
            Except.ok g ∧
          (hasOverride ((flattenPending gm.nonresolved_models).get ⟨i, h1⟩) =
              false → (asgns.get ⟨i, h2⟩).2 = g) ∧
          (hasOverride ((flattenPending gm.nonresolved_models).get ⟨i, h1⟩) =
              true →
            gm.next_id ≤ (asgns.get ⟨i, h2⟩).2.id ∧
            ∃ dm, parse_config
                ((flattenPending gm.nonresolved_models).get ⟨i, h1⟩).1
                (buildOverlay
                  ((flattenPending gm.nonresolved_models).get ⟨i, h1⟩).2.1 ::
                    g.dm.getConfigurations) = Except.ok dm ∧
              (asgns.get ⟨i, h2⟩).2.dm = dm)) ∧
      (∀ cfg : Cfg, (cfg.entries.map Prod.fst).Nodup →
        buildOverlay cfg =
          ⟨"", cfg.entries.filter (fun kv => !(internalKey kv.1))⟩) ∧
      (∀ (ov : Cfg) (cs : List Cfg) (k : String), ov.name = "" →
        (headerConfiguration (ov :: cs)).find k =
          (ov.find k).or ((headerConfiguration cs).find k)) := by
  unfold GeometryManager.close_geometry at h
  split at h
  next e heq => cases h
  next asgns nid heq =>
    cases h
    obtain ⟨hlen, htot, hidx⟩ := resolveAll_get _ _ _ _ _ heq
    refine ⟨asgns, nid, heq, rfl, hlen, ?_, ?_, ?_⟩
    · intro i h1 h2
      obtain ⟨ha, g, hg, hno, hov⟩ := hidx i h1 h2
      refine ⟨ha, g, hg, hno, ?_⟩
      intro hovt
      obtain ⟨hid, dm, hp, hdm⟩ := hov hovt
      refine ⟨?_, dm, hp, hdm⟩
      rw [hid]
      omega
    · intro cfg hnodup
      exact buildOverlay_eq_filter cfg hnodup
    · intro ov cs k hname
      exact headerConfiguration_overlay ov cs k (by simp [hname])

/-- Witness for C4: closing the concrete manager `gmC4` succeeds and
produces exactly the resolution the theorem describes. -/
theorem C4_model_specialization_witness :
    gmC4.close_geometry = Except.ok gmC4closed ∧
    ∃ asgns nid,
      resolveAll gmC4.models (flattenPending gmC4.nonresolved_models)
          gmC4.next_id = Except.ok (asgns, nid) ∧
      gmC4closed = { gmC4 with
        detectors := applyAssignments gmC4.detectors asgns
        next_id := nid
        closed := true } := by
  have hrun : gmC4.close_geometry = Except.ok gmC4closed := by decide
  obtain ⟨asgns, nid, h1, h2, _⟩ :=
    C4_model_specialization gmC4 gmC4closed hrun
  exact ⟨hrun, asgns, nid, h1, h2⟩

/-- C5 (amended): two pending detectors of the same requested type share a
model instance exactly when neither has overrides (both get the generic
instance); a detector with overrides receives a freshly allocated private
instance, distinct from every registered model instance and from every
other pending detector's instance — even when the override sets are
identical. -/
theorem C5_instance_sharing (models : List MModel)
    (flat : List (String × Cfg × Nat)) (nid nid2 : Nat)
    (asgns : List (Nat × MModel))
    (hmodels : ∀ mm ∈ models, mm.id < nid)
    (h : resolveAll models flat nid = Except.ok (asgns, nid2)) :
    (∀ (i j : Nat) (hi1 : i < flat.length) (hi2 : i < asgns.length)
        (hj1 : j < flat.length) (hj2 : j < asgns.length),
      (flat.get ⟨i, hi1⟩).1 = (flat.get ⟨j, hj1⟩).1 →
      hasOverride (flat.get ⟨i, hi1⟩) = false →
      hasOverride (flat.get ⟨j, hj1⟩) = false →
      (asgns.get ⟨i, hi2⟩).2 = (asgns.get ⟨j, hj2⟩).2) ∧
    (∀ (i j : Nat) (hi1 : i < flat.length) (hi2 : i < asgns.length)
        (hj1 : j < flat.length) (hj2 : j < asgns.length),
      hasOverride (flat.get ⟨i, hi1⟩) = true → i ≠ j →
      (asgns.get ⟨i, hi2⟩).2.id ≠ (asgns.get ⟨j, hj2⟩).2.id) ∧
    (∀ (i : Nat) (hi1 : i < flat.length) (hi2 : i < asgns.length),
      hasOverride (flat.get ⟨i, hi1⟩) = true →
      ∀ mm ∈ models, (asgns.get ⟨i, hi2⟩).2.id ≠ mm.id) := by
  obtain ⟨hlen, htot, hidx⟩ := resolveAll_get flat models nid nid2 asgns h
  refine ⟨?_, ?_, ?_⟩
  · intro i j hi1 hi2 hj1 hj2 htype hovi hovj
    obtain ⟨_, gi, hgi, hnoi, _⟩ := hidx i hi1 hi2
    obtain ⟨_, gj, hgj, hnoj, _⟩ := hidx j hj1 hj2
    rw [hnoi hovi, hnoj hovj]
    rw [htype] at hgi
    rw [hgi] at hgj
    cases hgj
    rfl
  · intro i j hi1 hi2 hj1 hj2 hovi hne
    obtain ⟨_, gi, hgi, _, hovci⟩ := hidx i hi1 hi2
    obtain ⟨hidi, _⟩ := hovci hovi
    by_cases hovj : hasOverride (flat.get ⟨j, hj1⟩) = true
    · obtain ⟨_, gj, hgj, _, hovcj⟩ := hidx j hj1 hj2
      obtain ⟨hidj, _⟩ := hovcj hovj
      rw [hidi, hidj]
      rcases Nat.lt_or_ge i j with hij | hij
      · have := countOverrides_take_lt flat i j hi1 hij hovi
        omega
      · have hji : j < i := Nat.lt_of_le_of_ne hij (fun he => hne he.symm)
        have := countOverrides_take_lt flat j i hj1 hji hovj
        omega
    · obtain ⟨_, gj, hgj, hnoj, _⟩ := hidx j hj1 hj2
      have hgjm := hnoj (by simpa using hovj)
      have hmem := getModelByType_mem _ _ _ hgj
      have hlt := hmodels gj hmem
      rw [hidi, hgjm]
      omega
  · intro i hi1 hi2 hovi mm hmm
    obtain ⟨_, gi, hgi, _, hovci⟩ := hidx i hi1 hi2
    obtain ⟨hidi, _⟩ := hovci hovi
    have hlt := hmodels mm hmm
    rw [hidi]
    omega

/-- C5 counterexample: two pending detectors request the same model type
with identical configurations (hence identical override sets), yet after
resolution they reference two distinct specialized model instances (fresh
ids 1 and 2), not a shared one. -/
theorem C5_sharing_counterexample :
    flatC5 = [("X", cfgOvDet, 0), ("X", cfgOvDet, 1)] ∧
    resolveAll [mXinst] flatC5 1 = Except.ok (asgnsC5, 3) ∧
    asgnsC5 = [(0, ⟨1, dmSpec⟩), (1, ⟨2, dmSpec⟩)] ∧
    (⟨1, dmSpec⟩ : MModel) ≠ ⟨2, dmSpec⟩ :=
  ⟨rfl, by decide, rfl, by decide⟩

/-- Witness for C5 at the concrete run on `flatC5`. -/
theorem C5_instance_sharing_witness :
    ∃ (hi1 : 0 < flatC5.length) (hi2 : 0 < asgnsC5.length)
      (hj1 : 1 < flatC5.length) (hj2 : 1 < asgnsC5.length),
      hasOverride (flatC5.get ⟨0, hi1⟩) = true ∧
      (asgnsC5.get ⟨0, hi2⟩).2.id ≠ (asgnsC5.get ⟨1, hj2⟩).2.id := by
  have hmodels : ∀ mm ∈ [mXinst], mm.id < 1 := by decide
  have hrun : resolveAll [mXinst] flatC5 1 = Except.ok (asgnsC5, 3) := by
    decide
  obtain ⟨_, hdist, _⟩ :=
    C5_instance_sharing [mXinst] flatC5 1 3 asgnsC5 hmodels hrun
  exact ⟨by decide, by decide, by decide, by decide, by decide,
    hdist 0 1 (by decide) (by decide) (by decide) (by decide) (by decide)
      (by decide)⟩

end AllpixGeom
